import Mathlib

/-!
# phosphor-hwmon: alarm event deduplication, value adjustment and the polling loop

A shallow embedding of `src/mainloop.cpp`:

* `add_event_log` with the process-wide `g_record_event_list`
  (a `std::set<std::string>`, here a `Finset String`);
* the `WARN` / `CRIT` cases of the polling loop in `MainLoop::run` that feed it;
* `adjustValue` with the two global maps `sensorAdjusts` and `sensorRecord`;
* `getAttributes` over the table `typeAttrMap`;
* one pass of the polling loop of `MainLoop::run` (`tick`), with the OCC
  aggregates and the removal of failed sensors.

Globals are passed explicitly as state.  A bus call is recorded as a returned
`LogCall`.  Where the source reaches undefined behaviour (erasing the `end()`
iterator, converting an out-of-range `double` to `int`) the model has no result.
-/

namespace PhosphorHwmon

/-! ## Data model -/

/-- The type `SensorSet::key_type`: the pair (hwmon class, index), e.g. `("temp", "1")`. -/
abbrev SensorKey := String × String

/-- One `CommitWithLvl` method call sent by `add_event_log`: the appended
`event_log` string and `error_level` (the leading `uint64_t(0)` is constant). -/
structure LogCall where
  event_log : String
  error_level : Nat
  deriving DecidableEq, Repr

/-- The call `g_record_event_list.find(key)`: `some key` stands for an iterator to
the element, `none` for `end()`. -/
def setFind (g : Finset String) (key : String) : Option String :=
  if key ∈ g then some key else none

/-- The call `g_record_event_list.erase(it)`.  Erasing the `end()` iterator is
undefined behaviour in C++: there is no result (`none`). -/
def setEraseIt (g : Finset String) : Option String → Option (Finset String)
  | some key => some (g.erase key)
  | none => none

/-! ## add_event_log (mainloop.cpp 303-342) -/

/-- The function `add_event_log`.  Takes the dedup set, returns the new set and the
bus call made, if any; `none` when the call runs into the undefined erase of line
329, after which nothing is known of the program.  Parameter order is the
source's: `event_log, sensor, event_key, assert_msg, error_level`. -/
def add_event_log (g : Finset String) (event_log sensor event_key assert_msg : String)
    (error_level : Nat) : Option (Finset String × Option LogCall) :=
  let record_item_key := event_key ++ sensor
  let record_item := setFind g record_item_key
  if assert_msg = "Assert" then
    if record_item ≠ none then
      some (g, none)
    else
      some (insert record_item_key g, some ⟨event_log, error_level⟩)
  else if assert_msg = "Deassert" then
    if record_item ≠ none then
      some (g, none)
    else
      (setEraseIt g record_item).map fun g => (g, some ⟨event_log, error_level⟩)
  else
    some (g, some ⟨event_log, error_level⟩)

/-! ## The threshold cases of the polling loop (mainloop.cpp 582-639) -/

/-- The inner `switch (result_check_threshold)` shared by the `WARN` and `CRIT`
cases: `case 2` and `case 1` build a message and call `add_event_log` with
`"Assert"`, `default` calls it with an empty message and `"Deassert"`.
As in the source, the category string is passed in the `sensor` position and
`i.first.first + i.first.second` in the `event_key` position. -/
def thresholdSwitch (highMsg lowMsg category : String) (level : Nat)
    (g : Finset String) (key : SensorKey) (sensor_name : String) (value : Int)
    (result_check_threshold : Int) : Option (Finset String × Option LogCall) :=
  if result_check_threshold = 2 then
    add_event_log g (highMsg ++ sensor_name ++ ", value:" ++ toString value)
      category (key.1 ++ key.2) "Assert" level
  else if result_check_threshold = 1 then
    add_event_log g (lowMsg ++ sensor_name ++ ", value:" ++ toString value)
      category (key.1 ++ key.2) "Assert" level
  else
    add_event_log g "" category (key.1 ++ key.2) "Deassert" level

/-- The case `InterfaceType::WARN`, after `checkThresholds<WarningObject>` returned
`result_check_threshold`.  `LOG_LEVEL_WARNING` comes from `config.h`. -/
def pollWarning (LOG_LEVEL_WARNING : Nat) :=
  thresholdSwitch "Sensor Threshold WarningHigh:" "Sensor Threshold WarningLow:"
    "ThresholdWarning" LOG_LEVEL_WARNING

/-- The case `InterfaceType::CRIT`, after `checkThresholds<CriticalObject>` returned
`result_check_threshold`.  `LOG_LEVEL_CRITICAL` comes from `config.h`. -/
def pollCritical (LOG_LEVEL_CRITICAL : Nat) :=
  thresholdSwitch "Sensor Threshold CriticalHigh:" "Sensor Threshold CriticalLow:"
    "ThresholdCritical" LOG_LEVEL_CRITICAL

/-- Result codes of `checkThresholds` as the loop's `switch` reads them. -/
def Normal : Int := 0
/-- Result code for `value < low setpoint` (`case 1`). -/
def BelowLow : Int := 1
/-- Result code for `value > high setpoint` (`case 2`). -/
def AboveHigh : Int := 2

/-- Successive poll ticks of one sensor through one category case: each tick
supplies the calibrated value and the classification code; the dedup set is
threaded through and the bus call of every tick (or `none`) is collected.  The
whole is `none` when one of the ticks runs into the undefined erase. -/
def runTicks (step : Finset String → SensorKey → String → Int → Int →
      Option (Finset String × Option LogCall))
    (key : SensorKey) (sensor_name : String) :
    Finset String → List (Int × Int) → Option (Finset String × List (Option LogCall))
  | g, [] => some (g, [])
  | g, (value, cls) :: rest =>
    match step g key sensor_name value cls with
    | none => none
    | some r =>
      match runTicks step key sensor_name r.1 rest with
      | none => none
      | some rs => some (rs.1, r.2 :: rs.2)

/-! ## Value adjustment (mainloop.cpp 68-84, 183-218, 267-287)

A finite `double` is the rational it stands for, and every `double` operation
gives the exact result rounded to IEEE 754 binary64 (round to nearest, ties to
even), each operation rounded on its own (the product and the sum of lines 211-212 are
two operations, not one fused multiply-add); `int` is the 32-bit signed range. -/

/-- The struct `valueAdjust` with its default member initialisers.  `gain` and
`coefficient` hold the value of a finite `double`. -/
structure valueAdjust where
  gain : ℚ := 1
  offset : Int := 0
  coefficient : ℚ := 1
  deriving DecidableEq

/-- The struct `valueRecord` with its default member initialiser. -/
structure valueRecord where
  record_value : Int := 0
  deriving DecidableEq

/-- The global `sensorAdjusts`: `std::map<SensorSet::key_type, valueAdjust>`. -/
abbrev AdjustMap := SensorKey → Option valueAdjust

/-- The global `sensorRecord`: `std::map<SensorSet::key_type, valueRecord>`. -/
abbrev RecordMap := SensorKey → Option valueRecord

/-- Smallest value of `int`. -/
def INT_MIN : Int := -2147483648

/-- Largest value of `int`. -/
def INT_MAX : Int := 2147483647

/-- The conversion `static_cast<int>(double)`: the fractional part is discarded
(quotient of numerator by denominator rounded toward zero); when the truncated
value is not representable in `int` the conversion has no defined result (`none`). -/
def doubleToInt (x : ℚ) : Option Int :=
  let t := Int.tdiv x.num x.den
  if INT_MIN ≤ t ∧ t ≤ INT_MAX then some t else none

/-- Lines 188-196 of `adjustValue`: when the sensor has a record, a negative
`value` is replaced by the recorded one, and then the record is written with
`value`.  Returns the value that goes on and the new record map. -/
def recordStep (sensorRecord : RecordMap) (sensor : SensorKey) (value : Int) :
    Int × RecordMap :=
  match sensorRecord sensor with
  | some it_record =>
    let value := if value < 0 then it_record.record_value else value
    (value, Function.update sensorRecord sensor (some { it_record with record_value := value }))
  | none => (value, sensorRecord)

/-- The power `2 ^ e` for an integer exponent. -/
def pow2 (e : Int) : ℚ :=
  if 0 ≤ e then ((2 ^ e.toNat : Nat) : ℚ) else 1 / ((2 ^ (-e).toNat : Nat) : ℚ)

/-- The number of halvings that bring `n` below 2, with `fuel` steps at most. -/
def log2Fuel : Nat → Nat → Nat
  | 0, _ => 0
  | fuel + 1, n => if 2 ≤ n then log2Fuel fuel (n / 2) + 1 else 0

/-- The binary logarithm of a natural number, rounded down (0 for 0). -/
def natLog2 (n : Nat) : Nat := log2Fuel n n

/-- The binary logarithm of the absolute value of a non-zero rational, rounded
down: the `l` with `2 ^ l ≤ |a| < 2 ^ (l + 1)`. -/
def floorLog2 (a : ℚ) : Int :=
  let l0 : Int := (natLog2 a.num.natAbs : Int) - (natLog2 a.den : Int)
  if pow2 l0 ≤ |a| then l0 else l0 - 1

/-- The integer nearest to a non-negative rational, a tie going to the even one. -/
def roundHalfEven (q : ℚ) : Int :=
  let f := ⌊q⌋
  if q - f < 1 / 2 then f
  else if 1 / 2 < q - f then f + 1
  else if f % 2 = 0 then f else f + 1

/-- The `double` nearest to a rational (IEEE 754 binary64: 53 significant bits,
least exponent `2 ^ -1074`, round to nearest, ties to even); `none` when the
rounded value is beyond the largest finite `double` (the result is an infinity). -/
def roundDouble (x : ℚ) : Option ℚ :=
  if x = 0 then some 0
  else
    let e := max (floorLog2 x - 52) (-1074)
    let r := (roundHalfEven (|x| / pow2 e) : ℚ) * pow2 e
    if pow2 1024 ≤ r then none else some (if x < 0 then -r else r)

/-- The product of two finite `double`s. -/
def doubleMul (a b : ℚ) : Option ℚ := roundDouble (a * b)

/-- The sum of two finite `double`s. -/
def doubleAdd (a b : ℚ) : Option ℚ := roundDouble (a + b)

/-- Lines 206-217 of `adjustValue`: when the sensor has an entry in
`sensorAdjusts`, `static_cast<double>(value) * gain + offset` is converted back to
`int`, and then the result times `coefficient` is.  The conversions of `value` and
`offset` to `double` are exact.  An infinite product or sum has no conversion to
`int`. -/
def calibrate (sensorAdjusts : AdjustMap) (sensor : SensorKey) (value : Int) : Option Int :=
  match sensorAdjusts sensor with
  | some it =>
    (doubleMul (value : ℚ) it.gain).bind fun product =>
      (doubleAdd product (it.offset : ℚ)).bind fun sum =>
        (doubleToInt sum).bind fun value =>
          (doubleMul (value : ℚ) it.coefficient).bind fun product =>
            doubleToInt product
  | none => some value

/-- The function `adjustValue`.  `NEGATIVE_ERRNO_ON_FAIL` is the build flag of
lines 199-204.  Returns the result (`none` when a conversion to `int` is
undefined) and the new `sensorRecord`. -/
def adjustValue (NEGATIVE_ERRNO_ON_FAIL : Bool) (sensorAdjusts : AdjustMap)
    (sensorRecord : RecordMap) (sensor : SensorKey) (value : Int) :
    Option Int × RecordMap :=
  let r := recordStep sensorRecord sensor value
  let value := r.1
  if NEGATIVE_ERRNO_ON_FAIL = true ∧ value < 0 then
    (some value, r.2)
  else
    (calibrate sensorAdjusts sensor value, r.2)

/-- The expression `sensorAdjusts[sensor]`: `operator[]` default-constructs a
missing entry. -/
def adjustsAt (sensorAdjusts : AdjustMap) (sensor : SensorKey) : valueAdjust :=
  (sensorAdjusts sensor).getD {}

/-- Lines 267-287 of `addValue`, reached after a successful first read `val`.
`gain`, `offset`, `coefficient` are what `std::stod`, `std::stoi`, `std::stod`
returned for the `GAIN`, `OFFSET`, `COEFFICIENT` settings of the sensor, `none`
when `getEnv` returned the empty string.
Returns the adjusted initial value and the two maps. -/
def addValue (NEGATIVE_ERRNO_ON_FAIL : Bool) (sensorAdjusts : AdjustMap)
    (sensorRecord : RecordMap) (sensor : SensorKey) (val : Int)
    (gain : Option ℚ) (offset : Option Int) (coefficient : Option ℚ) :
    Option Int × AdjustMap × RecordMap :=
  let sensorAdjusts : AdjustMap :=
    match gain with
    | some g =>
      Function.update sensorAdjusts sensor
        (some { adjustsAt sensorAdjusts sensor with gain := g })
    | none => sensorAdjusts
  let sensorAdjusts : AdjustMap :=
    match offset with
    | some o =>
      Function.update sensorAdjusts sensor
        (some { adjustsAt sensorAdjusts sensor with offset := o })
    | none => sensorAdjusts
  let sensorAdjusts : AdjustMap :=
    match coefficient with
    | some c =>
      Function.update sensorAdjusts sensor
        (some { adjustsAt sensorAdjusts sensor with coefficient := c })
    | none => sensorAdjusts
  let sensorRecord : RecordMap :=
    Function.update sensorRecord sensor
      (some { (sensorRecord sensor).getD {} with record_value := 0 })
  let r := adjustValue NEGATIVE_ERRNO_ON_FAIL sensorAdjusts sensorRecord sensor val
  (r.1, sensorAdjusts, r.2)

/-- Truncation toward zero of a rational, stated with floor and ceiling: the
reference the conversion `doubleToInt` is compared with. -/
def truncTowardZero (x : ℚ) : Int := if 0 ≤ x then ⌊x⌋ else ⌈x⌉

/-- The condition that a truncated value is representable in `int`. -/
def inIntRange (t : Int) : Prop := INT_MIN ≤ t ∧ t ≤ INT_MAX

instance (t : Int) : Decidable (inIntRange t) := by
  unfold inIntRange
  infer_instance

/-- The conversion of a finite `double` to `int` stated with `truncTowardZero`:
the truncated value when it is representable in `int`, otherwise no result. -/
def truncInt (x : ℚ) : Option Int :=
  if inIntRange (truncTowardZero x) then some (truncTowardZero x) else none

/-! ## Key families and concrete stores used in the statements -/

/-- Keys `add_event_log` builds when `category` is its `event_key` argument. -/
def keysOf (category : String) : Set String := {k | ∃ s, k = category ++ s}

/-- Keys the polling loop builds: it passes the category in the `sensor`
position, so the category comes last. -/
def loopKeysOf (category : String) : Set String := {k | ∃ id, k = id ++ category}

/-- Two dedup sets with the same members outside the key family `K`. -/
def AgreeOutside (K : Set String) (g g' : Finset String) : Prop :=
  ∀ k, k ∉ K → (k ∈ g ↔ k ∈ g')

/-- An empty `sensorAdjusts`. -/
def noAdjusts : AdjustMap := fun _ => none

/-- An empty `sensorRecord`. -/
def noRecords : RecordMap := fun _ => none

/-- A `sensorAdjusts` with one entry, for `("temp", "1")`. -/
def adjustsFor (a : valueAdjust) : AdjustMap :=
  fun k => if k = ("temp", "1") then some a else none

/-- A `sensorRecord` with one entry, for `("temp", "1")`. -/
def recordFor (r : Int) : RecordMap :=
  fun k => if k = ("temp", "1") then some { record_value := r } else none

/-! ## Type attribute table (mainloop.cpp 86-181) -/

/-- The enumeration `ValueInterface::Unit`, with the members the table uses. -/
inductive ValueInterfaceUnit where
  | DegreesC
  | RPMS
  | Volts
  | Amperes
  | Joules
  | Watts
  deriving DecidableEq, Repr

/-- The class-name constants `hwmon::type::c...` of `hwmon.hpp`. -/
structure HwmonTypes where
  ctemp : String
  cfan : String
  cvolt : String
  ccurr : String
  cenergy : String
  cpower : String
  cpwm : String
  cmicron_temp : String
  cpm963_temp : String

/-- The tuple type `Attributes`: (hwmon class, unit, sysfs scaling factor,
namespace segment). -/
abbrev Attributes := String × ValueInterfaceUnit × Int × String

/-- The table `typeAttrMap`, rows in source order. -/
def typeAttrMap (ty : HwmonTypes) : List Attributes :=
  [ (ty.ctemp, ValueInterfaceUnit.DegreesC, -3, "temperature"),
    (ty.cfan, ValueInterfaceUnit.RPMS, 0, "fan_tach"),
    (ty.cvolt, ValueInterfaceUnit.Volts, -3, "voltage"),
    (ty.ccurr, ValueInterfaceUnit.Amperes, -3, "current"),
    (ty.cenergy, ValueInterfaceUnit.Joules, -6, "energy"),
    (ty.cpower, ValueInterfaceUnit.Watts, -6, "power"),
    (ty.cpwm, ValueInterfaceUnit.RPMS, 0, "pwm"),
    (ty.cmicron_temp, ValueInterfaceUnit.DegreesC, -3, "temperature"),
    (ty.cpm963_temp, ValueInterfaceUnit.DegreesC, -3, "temperature") ]

/-- The accessor `getHwmonType`: `std::get<0>`. -/
def getHwmonType (attrs : Attributes) : String := attrs.1

/-- The accessor `getUnit`: `std::get<1>`. -/
def getUnit (attrs : Attributes) : ValueInterfaceUnit := attrs.2.1

/-- The accessor `getScale`: `std::get<2>`. -/
def getScale (attrs : Attributes) : Int := attrs.2.2.1

/-- The accessor `getNamespace`: `std::get<3>`. -/
def getNamespace (attrs : Attributes) : String := attrs.2.2.2

/-- The function `getAttributes`: `std::find_if` over the table for the first row
whose class equals `type`; returns the `bool` result and the out-parameter
`attributes` after the call. -/
def getAttributes (ty : HwmonTypes) (type : String) (attributes : Attributes) :
    Bool × Attributes :=
  match (typeAttrMap ty).find? (fun e => type == getHwmonType e) with
  | none => (false, attributes)
  | some a => (true, a)

/-! ## The polling loop of `MainLoop::run` (mainloop.cpp 524-704) -/

/-- Ways a tick ends without reaching its end: the `std::out_of_range` thrown by
`std::string::compare`, a conversion to `int` without defined result, the
undefined erase in `add_event_log`, and `exit(EXIT_FAILURE)`.  After the two
undefined ones nothing is known of the program; the tick is not taken further. -/
inductive Abort where
  | out_of_range
  | undefined_conversion
  | undefined_erase
  | exit_failure
  deriving DecidableEq, Repr

/-- The bytes of a `std::string` (positions and sizes of `std::string` count bytes). -/
def bytes (s : String) : List UInt8 := s.toUTF8.data.toList

/-- The test `str.compare(pos, len, s) == 0`: throws `std::out_of_range` when
`pos > str.size()`, otherwise compares the substring of at most `len` bytes from
`pos` with `s`. -/
def compareEq (str : String) (pos len : Nat) (s : String) : Except Abort Bool :=
  if pos > (bytes str).length then
    Except.error Abort.out_of_range
  else
    Except.ok (((bytes str).drop pos).take len == bytes s)

/-- What the label tests of lines 560-566 decide for a sensor. -/
inductive OccRole where
  | dimm
  | core
  | neither
  deriving DecidableEq, Repr

/-- The two label tests of lines 560 and 563, in order: `compare(0, 4, "dimm")`,
and only when that fails `compare(3, 4, "core")`. -/
def occRole (sensor_name : String) : Except Abort OccRole :=
  match compareEq sensor_name 0 4 "dimm" with
  | Except.error e => Except.error e
  | Except.ok true => Except.ok OccRole.dimm
  | Except.ok false =>
    match compareEq sensor_name 3 4 "core" with
    | Except.error e => Except.error e
    | Except.ok true => Except.ok OccRole.core
    | Except.ok false => Except.ok OccRole.neither

/-- The mapped type of `MainLoop::state`, as far as the loop reads it: the label
(`std::get<std::string>`) and which threshold interfaces the `Object` map holds
next to `InterfaceType::VALUE`. -/
structure SensorEntry where
  label : String
  hasWarn : Bool
  hasCrit : Bool
  deriving DecidableEq, Repr

/-- What stays fixed while the loop runs: the build flags, the `config.h` levels,
`_isOCC`, `sensorAdjusts` (written at registration only), and the results of
`checkThresholds<WarningObject>` and `checkThresholds<CriticalObject>`
(`thresholds.hpp`) for a sensor and value. -/
structure LoopEnv where
  REMOVE_ON_FAIL : Bool
  NEGATIVE_ERRNO_ON_FAIL : Bool
  LOG_LEVEL_WARNING : Nat
  LOG_LEVEL_CRITICAL : Nat
  isOCC : Bool
  sensorAdjusts : AdjustMap
  checkWarning : SensorKey → Int → Int
  checkCritical : SensorKey → Int → Int

/-- The state the loop works on: the working set `state` (in iteration order), the
globals `g_record_event_list` and `sensorRecord`, the value property of each
sensor's `ValueObject`, the bus calls of `add_event_log` and the `ReadFailure`
reports so far, the content of the two aggregate files (`none`: the file does not
exist), and the locals of the current tick `destroy`, `occ_max_core_temp`,
`occ_max_dimm_temp`. -/
structure LoopState where
  state : List (SensorKey × SensorEntry)
  g_record_event_list : Finset String
  sensorRecord : RecordMap
  values : SensorKey → Option Int
  calls : List LogCall
  reports : List (SensorKey × Nat)
  occ_max_dimm_file : Option Int
  occ_max_core_file : Option Int
  destroy : List SensorKey
  occ_max_core_temp : Int
  occ_max_dimm_temp : Int

/-- Lines 559-567: in OCC mode the label decides whether `value` raises the dimm
or the core maximum of this tick. -/
def occStep (isOCC : Bool) (sensor_name : String) (value : Int) (v : LoopState) :
    Except Abort LoopState :=
  if isOCC = true then
    match occRole sensor_name with
    | Except.error e => Except.error e
    | Except.ok OccRole.dimm =>
      Except.ok (if v.occ_max_dimm_temp < value then
        { v with occ_max_dimm_temp := value } else v)
    | Except.ok OccRole.core =>
      Except.ok (if v.occ_max_core_temp < value then
        { v with occ_max_core_temp := value } else v)
    | Except.ok OccRole.neither => Except.ok v
  else
    Except.ok v

/-- One threshold case of the loop over the interfaces, taken when the sensor has
the interface (`present`): the classification `cls` goes through the `switch` of
the case (`poll`), which updates the dedup set and may make a bus call. -/
def thresholdCase (present : Bool)
    (poll : Finset String → SensorKey → String → Int → Int →
      Option (Finset String × Option LogCall))
    (cls : Int) (i : SensorKey × SensorEntry) (value : Int) (v : LoopState) :
    Except (Abort × LoopState) LoopState :=
  if present = true then
    match poll v.g_record_event_list i.1 i.2.label value cls with
    | none => Except.error (Abort.undefined_erase, v)
    | some r =>
      Except.ok { v with g_record_event_list := r.1, calls := v.calls ++ r.2.toList }
  else
    Except.ok v

/-- Lines 568-643: the loop over the interfaces of the sensor, in the order of
`InterfaceType`: `VALUE` sets the value property, `WARN` and `CRIT` classify the
value and go through `add_event_log`. -/
def ifaceLoop (env : LoopEnv) (i : SensorKey × SensorEntry) (value : Int)
    (v : LoopState) : Except (Abort × LoopState) LoopState :=
  let v := { v with values := Function.update v.values i.1 (some value) }
  match thresholdCase i.2.hasWarn (pollWarning env.LOG_LEVEL_WARNING)
      (env.checkWarning i.1 value) i value v with
  | Except.error e => Except.error e
  | Except.ok v =>
    thresholdCase i.2.hasCrit (pollCritical env.LOG_LEVEL_CRITICAL)
      (env.checkCritical i.1 value) i value v

/-- Lines 536-671: the body of the loop over `state` for one sensor `i`.
`read` is the outcome of `ioAccess.read` for each sensor in this tick: the value,
or the error code of the `std::system_error`.  An abort carries the state reached. -/
def sensorBody (env : LoopEnv) (read : SensorKey → Except Nat Int)
    (i : SensorKey × SensorEntry) (v : LoopState) : Except (Abort × LoopState) LoopState :=
  match read i.1 with
  | Except.error errno =>
    let v := { v with reports := v.reports ++ [(i.1, errno)] }
    if env.REMOVE_ON_FAIL = true then
      Except.ok { v with destroy := v.destroy ++ [i.1] }
    else
      Except.error (Abort.exit_failure, v)
  | Except.ok raw =>
    let r := adjustValue env.NEGATIVE_ERRNO_ON_FAIL env.sensorAdjusts v.sensorRecord i.1 raw
    let v := { v with sensorRecord := r.2 }
    match r.1 with
    | none => Except.error (Abort.undefined_conversion, v)
    | some value =>
      match occStep env.isOCC i.2.label value v with
      | Except.error e => Except.error (e, v)
      | Except.ok v => ifaceLoop env i value v

/-- The `for (auto& i : state)` loop of lines 532-672. -/
def forSensors (env : LoopEnv) (read : SensorKey → Except Nat Int) :
    List (SensorKey × SensorEntry) → LoopState → Except (Abort × LoopState) LoopState
  | [], v => Except.ok v
  | i :: rest, v =>
    match sensorBody env read i v with
    | Except.error e => Except.error e
    | Except.ok v => forSensors env read rest v

/-- Lines 688-693: `state.erase(i)` for every key in `destroy`. -/
def eraseKeys (destroy : List SensorKey) (state : List (SensorKey × SensorEntry)) :
    List (SensorKey × SensorEntry) :=
  destroy.foldl (fun st k => st.filter (fun e => decide (e.1 ≠ k))) state

/-- Lines 526-530: the locals of a tick are initialised. -/
def tickStart (s : LoopState) : LoopState :=
  { s with destroy := [], occ_max_core_temp := 0, occ_max_dimm_temp := 0 }

/-- Lines 674-686: in OCC mode each aggregate file that exists is overwritten with
the maximum of this tick. -/
def writeOccFiles (env : LoopEnv) (s : LoopState) : LoopState :=
  if env.isOCC = true then
    { s with
      occ_max_dimm_file := s.occ_max_dimm_file.map (fun _ => s.occ_max_dimm_temp),
      occ_max_core_file := s.occ_max_core_file.map (fun _ => s.occ_max_core_temp) }
  else s

/-- Lines 688-693: under `REMOVE_ON_FAIL` the keys collected in `destroy` are
erased from `state`. -/
def removeFailed (env : LoopEnv) (s : LoopState) : LoopState :=
  if env.REMOVE_ON_FAIL = true then
    { s with state := eraseKeys s.destroy s.state }
  else s

/-- One pass of the `while (!_shutdown)` body, lines 526-693: the locals are
initialised, every sensor of `state` is visited, the aggregate files are written,
and the failed sensors are removed. -/
def tick (env : LoopEnv) (read : SensorKey → Except Nat Int) (s : LoopState) :
    Except (Abort × LoopState) LoopState :=
  match forSensors env read s.state (tickStart s) with
  | Except.error e => Except.error e
  | Except.ok s => Except.ok (removeFailed env (writeOccFiles env s))

/-- The abort of a loop outcome, `none` when the loop code ran to its end. -/
def abortOf (r : Except (Abort × LoopState) LoopState) : Option Abort :=
  match r with
  | Except.error e => some e.1
  | Except.ok _ => none

/-- The state a loop outcome ends in, aborted or not. -/
def reached (r : Except (Abort × LoopState) LoopState) : LoopState :=
  match r with
  | Except.error e => e.2
  | Except.ok s => s

/-- Whether the read of a sensor succeeded in this tick. -/
def readOk (read : SensorKey → Except Nat Int) (key : SensorKey) : Bool :=
  match read key with
  | Except.ok _ => true
  | Except.error _ => false

/-- A label that begins with the bytes of `"dimm"`. -/
def startsWithDimm (label : String) : Prop := (bytes label).take 4 = bytes "dimm"

/-- A label that has the bytes of `"core"` at offset 3. -/
def hasCoreAt3 (label : String) : Prop := ((bytes label).drop 3).take 4 = bytes "core"

/-- The calibrated value a sensor brings to the aggregate of `role` in a tick: for
a sensor whose read succeeded and whose label has that role, the result of
`adjustValue` on its raw value with the record map `sensorRecord`. -/
def contributionOf (role : OccRole) (env : LoopEnv) (read : SensorKey → Except Nat Int)
    (sensorRecord : RecordMap) (e : SensorKey × SensorEntry) : Option Int :=
  match read e.1 with
  | Except.error _ => none
  | Except.ok raw =>
    match occRole e.2.label with
    | Except.error _ => none
    | Except.ok r =>
      if r = role then
        (adjustValue env.NEGATIVE_ERRNO_ON_FAIL env.sensorAdjusts sensorRecord e.1 raw).1
      else none

/-- The calibrated values of one tick that count for the aggregate of `role`, in
the order of the sensors. -/
def contributions (role : OccRole) (env : LoopEnv) (read : SensorKey → Except Nat Int)
    (sensorRecord : RecordMap) (sensors : List (SensorKey × SensorEntry)) : List Int :=
  sensors.filterMap (contributionOf role env read sensorRecord)

/-! ## Call sequences -/

/-- Successive `adjustValue` calls on one sensor with the given raw inputs: the
record map after the last call. -/
def adjustCalls (flag : Bool) (sensorAdjusts : AdjustMap) (sensor : SensorKey) :
    RecordMap → List Int → RecordMap
  | sensorRecord, [] => sensorRecord
  | sensorRecord, raw :: rest =>
    adjustCalls flag sensorAdjusts sensor
      (adjustValue flag sensorAdjusts sensorRecord sensor raw).2 rest

/-- The most recent non-negative entry of a sequence of raw inputs, `init` when
there is none. -/
def lastGood (init : Int) (raws : List Int) : Int :=
  raws.foldl (fun r raw => if raw < 0 then r else raw) init

/-- The arguments of one `add_event_log` call. -/
structure EventCall where
  event_log : String
  sensor : String
  event_key : String
  assert_msg : String
  error_level : Nat
  deriving DecidableEq, Repr

/-- A sequence of `add_event_log` calls: the set reached and, for every call that
returned, the bus call it made or `none`.  The sequence ends at the first call
that runs into the undefined erase. -/
def runCalls : Finset String → List EventCall → Finset String × List (Option LogCall)
  | g, [] => (g, [])
  | g, c :: rest =>
    match add_event_log g c.event_log c.sensor c.event_key c.assert_msg c.error_level with
    | none => (g, [])
    | some r =>
      let rs := runCalls r.1 rest
      (rs.1, r.2 :: rs.2)

/-- The number of `"Assert"` calls with key `key` in the sequence for which a bus
call was made. -/
def assertsEmitted (key : String) (g : Finset String) (calls : List EventCall) : Nat :=
  ((calls.zip (runCalls g calls).2).filter fun p =>
    decide (p.1.assert_msg = "Assert" ∧ p.1.event_key ++ p.1.sensor = key) &&
      p.2.isSome).length

/-- The two maps after a sensor was registered through `addValue` with first read
`val` and `adjustValue` was then called on it with the raw inputs `raws`. -/
def registeredThen (flag : Bool) (sensorAdjusts : AdjustMap) (sensorRecord : RecordMap)
    (sensor : SensorKey) (val : Int) (gain : Option ℚ) (offset : Option Int)
    (coefficient : Option ℚ) (raws : List Int) : AdjustMap × RecordMap :=
  let reg := addValue flag sensorAdjusts sensorRecord sensor val gain offset coefficient
  (reg.2.1, adjustCalls flag reg.2.1 sensor reg.2.2 raws)

/-! ## A concrete OCC loop used in the statements -/

/-- A loop environment of a `REMOVE_ON_FAIL` build in OCC mode, with the given
`sensorAdjusts`; a value above 50 is above the warning high setpoint and a value
above 90 is above the critical high setpoint, for every sensor. -/
def occEnv (sensorAdjusts : AdjustMap) : LoopEnv :=
  { REMOVE_ON_FAIL := true, NEGATIVE_ERRNO_ON_FAIL := false, LOG_LEVEL_WARNING := 3,
    LOG_LEVEL_CRITICAL := 2, isOCC := true, sensorAdjusts := sensorAdjusts,
    checkWarning := fun _ value => if 50 < value then 2 else 0,
    checkCritical := fun _ value => if 90 < value then 2 else 0 }

/-- A loop state with the given working set and a record holding 0 for every
sensor; the warning alarm of `("fan", "1")` was asserted earlier, both aggregate
files exist, and the locals hold leftovers 70 and 80. -/
def occState (sensors : List (SensorKey × SensorEntry)) : LoopState :=
  { state := sensors, g_record_event_list := {"fan1ThresholdWarning"},
    sensorRecord := fun _ => some { record_value := 0 },
    values := fun _ => none, calls := [], reports := [],
    occ_max_dimm_file := some 0, occ_max_core_file := some 0,
    destroy := [], occ_max_core_temp := 70, occ_max_dimm_temp := 80 }

/-- The reads of one tick given as a table; a sensor not in the table fails with
error code 5. -/
def readsOf (table : List (SensorKey × Int)) : SensorKey → Except Nat Int :=
  fun key =>
    match table.lookup key with
    | some raw => Except.ok raw
    | none => Except.error 5

/-- Three sensors: a dimm with both threshold interfaces, a core and a fan with
the warning interface. -/
def threeSensors : List (SensorKey × SensorEntry) :=
  [ (("temp", "1"), { label := "dimm0", hasWarn := true, hasCrit := true }),
    (("temp", "2"), { label := "p0-core1", hasWarn := true, hasCrit := false }),
    (("fan", "1"), { label := "fan0", hasWarn := true, hasCrit := false }) ]

/-- A threshold case that does not run into the undefined erase: the interface is
absent, or the classification is one of the two abnormal ones (an `"Assert"`
call), or the key of the case is in the dedup set already (the `"Deassert"` call
returns early). -/
def caseDefined (present : Bool) (cls : Int) (key : String) (g : Finset String) : Prop :=
  present = true → cls = 2 ∨ cls = 1 ∨ key ∈ g

/-- What lets the loop body of a sensor run to its end in a tick that starts with
the record map `sensorRecord` and the dedup set `g`: when its read succeeds, the
conversions of `adjustValue` are defined, in OCC mode the label has at least 3
bytes, and neither threshold case runs into the undefined erase. -/
def bodyCompletes (env : LoopEnv) (read : SensorKey → Except Nat Int)
    (sensorRecord : RecordMap) (g : Finset String) (e : SensorKey × SensorEntry) : Prop :=
  ∀ raw, read e.1 = Except.ok raw →
    ∃ value,
      (adjustValue env.NEGATIVE_ERRNO_ON_FAIL env.sensorAdjusts sensorRecord e.1 raw).1 =
        some value ∧
      (env.isOCC = true → 3 ≤ (bytes e.2.label).length) ∧
      caseDefined e.2.hasWarn (env.checkWarning e.1 value)
        (e.1.1 ++ e.1.2 ++ "ThresholdWarning") g ∧
      caseDefined e.2.hasCrit (env.checkCritical e.1 value)
        (e.1.1 ++ e.1.2 ++ "ThresholdCritical") g

/-! ## Lemmas -/

theorem setFind_ne_none (g : Finset String) (key : String) :
    setFind g key ≠ none ↔ key ∈ g := by
  unfold setFind
  split <;> simp [*]

theorem add_event_log_assert_eq (g : Finset String) (event_log sensor event_key : String)
    (level : Nat) :
    add_event_log g event_log sensor event_key "Assert" level =
      some (if event_key ++ sensor ∈ g then (g, none)
        else (insert (event_key ++ sensor) g, some ⟨event_log, level⟩)) := by
  simp only [add_event_log, setFind_ne_none, if_true]
  split <;> rfl

theorem add_event_log_deassert_eq (g : Finset String) (event_log sensor event_key : String)
    (level : Nat) :
    add_event_log g event_log sensor event_key "Deassert" level =
      if event_key ++ sensor ∈ g then some (g, none) else none := by
  have hne : ¬ ("Deassert" = "Assert") := by decide
  simp only [add_event_log, setFind_ne_none, if_true, hne, if_false]
  by_cases h : event_key ++ sensor ∈ g
  · simp [h]
  · simp [h, setFind, setEraseIt]

theorem add_event_log_other_eq (g : Finset String)
    (event_log sensor event_key assert_msg : String) (level : Nat)
    (ha : assert_msg ≠ "Assert") (hd : assert_msg ≠ "Deassert") :
    add_event_log g event_log sensor event_key assert_msg level =
      some (g, some ⟨event_log, level⟩) := by
  simp [add_event_log, ha, hd]

/-- A call does not return exactly when it is a `"Deassert"` call whose key
`event_key ++ sensor` is not in the set: then, and only then, the erase of line 329
is reached, with the `end()` iterator. -/
theorem add_event_log_eq_none_iff (g : Finset String)
    (event_log sensor event_key assert_msg : String) (level : Nat) :
    add_event_log g event_log sensor event_key assert_msg level = none ↔
      assert_msg = "Deassert" ∧ event_key ++ sensor ∉ g := by
  by_cases ha : assert_msg = "Assert"
  · subst ha
    rw [add_event_log_assert_eq]
    simp
  · by_cases hd : assert_msg = "Deassert"
    · subst hd
      rw [add_event_log_deassert_eq]
      by_cases hk : event_key ++ sensor ∈ g <;> simp [hk]
    · rw [add_event_log_other_eq g event_log sensor event_key assert_msg level ha hd]
      simp [hd]

/-- Membership of every key other than the call's own is left as it was. -/
theorem add_event_log_frame (g : Finset String)
    (event_log sensor event_key assert_msg : String) (level : Nat) (k : String)
    (hk : k ≠ event_key ++ sensor) (r : Finset String × Option LogCall)
    (hr : add_event_log g event_log sensor event_key assert_msg level = some r) :
    k ∈ r.1 ↔ k ∈ g := by
  by_cases ha : assert_msg = "Assert"
  · subst ha
    rw [add_event_log_assert_eq, Option.some.injEq] at hr
    subst hr
    split <;> simp [hk]
  · by_cases hd : assert_msg = "Deassert"
    · subst hd
      rw [add_event_log_deassert_eq] at hr
      split at hr
      · rw [Option.some.injEq] at hr
        subst hr
        exact Iff.rfl
      · cases hr
    · rw [add_event_log_other_eq _ _ _ _ _ _ ha hd, Option.some.injEq] at hr
      subst hr
      exact Iff.rfl

/-- Whether the call returns, and the bus call it makes, depend on the set only
through membership of the call's own key. -/
theorem add_event_log_decision (g g' : Finset String)
    (event_log sensor event_key assert_msg : String) (level : Nat)
    (h : event_key ++ sensor ∈ g ↔ event_key ++ sensor ∈ g') :
    (add_event_log g event_log sensor event_key assert_msg level).map Prod.snd =
      (add_event_log g' event_log sensor event_key assert_msg level).map Prod.snd := by
  by_cases ha : assert_msg = "Assert"
  · subst ha
    rw [add_event_log_assert_eq, add_event_log_assert_eq]
    by_cases hk : event_key ++ sensor ∈ g
    · simp [hk, h.mp hk]
    · simp [hk, mt h.mpr hk]
  · by_cases hd : assert_msg = "Deassert"
    · subst hd
      rw [add_event_log_deassert_eq, add_event_log_deassert_eq]
      by_cases hk : event_key ++ sensor ∈ g
      · simp [hk, h.mp hk]
      · simp [hk, mt h.mpr hk]
    · rw [add_event_log_other_eq _ _ _ _ _ _ ha hd, add_event_log_other_eq _ _ _ _ _ _ ha hd]
      rfl

theorem warning_key_ne_critical_key (s s' : String) :
    "ThresholdWarning" ++ s ≠ "ThresholdCritical" ++ s' := by
  intro h
  have h2 := congrArg String.data h
  simp only [String.data_append] at h2
  simp at h2

theorem warning_loopKey_ne_critical_loopKey (s s' : String) :
    s ++ "ThresholdWarning" ≠ s' ++ "ThresholdCritical" := by
  intro h
  have h2 := congrArg (fun x => x.data.reverse) h
  simp only [String.data_append, List.reverse_append] at h2
  simp at h2

/-- Every call of the threshold switch is an `add_event_log` call whose key is
`key.1 ++ key.2 ++ category`. -/
theorem thresholdSwitch_is_call (highMsg lowMsg category : String) (level : Nat)
    (key : SensorKey) (sensor_name : String) (value cls : Int) :
    ∃ event_log assert_msg, ∀ g,
      thresholdSwitch highMsg lowMsg category level g key sensor_name value cls =
        add_event_log g event_log category (key.1 ++ key.2) assert_msg level := by
  unfold thresholdSwitch
  by_cases h2 : cls = 2
  · exact ⟨highMsg ++ sensor_name ++ ", value:" ++ toString value, "Assert",
      fun g => by simp [h2]⟩
  · by_cases h1 : cls = 1
    · exact ⟨lowMsg ++ sensor_name ++ ", value:" ++ toString value, "Assert",
        fun g => by simp [h1]⟩
    · exact ⟨"", "Deassert", fun g => by simp [h1, h2]⟩

theorem tdiv_num_den (x : ℚ) : Int.tdiv x.num x.den = truncTowardZero x := by
  unfold truncTowardZero
  split
  · rename_i h
    rw [Int.tdiv_eq_ediv (Rat.num_nonneg.mpr h) (Int.ofNat_nonneg _), Rat.floor_def]
  · rename_i h
    have hx : 0 ≤ -x := by linarith [not_le.mp h]
    have h1 : ⌈x⌉ = -⌊-x⌋ := by rw [Int.floor_neg, neg_neg]
    have h2 : Int.tdiv x.num x.den = -(Int.tdiv (-x.num) x.den) := by
      rw [Int.neg_tdiv, neg_neg]
    have hn : 0 ≤ -x.num := by
      have := Rat.num_nonneg.mpr hx
      simpa using this
    rw [h1, h2, Int.tdiv_eq_ediv hn (Int.ofNat_nonneg _), Rat.floor_def]
    simp

theorem doubleToInt_eq (x : ℚ) :
    doubleToInt x =
      if inIntRange (truncTowardZero x) then some (truncTowardZero x) else none := by
  simp only [doubleToInt, tdiv_num_den, inIntRange]

/-! ## Alarm event deduplication: claims C1-C5 -/

/-- C1 (evaluation of the code).  Fed `[AboveHigh, Normal]` for sensor
`("temp", "1")` from the empty set, the `WARN` case makes the `Assert` bus call on
the first tick and no bus call on the `Normal` tick; fed
`[AboveHigh, AboveHigh, AboveHigh, Normal]` it makes the one `Assert` call and again
none on the final `Normal`.  A `Normal` tick from the empty set, the first tick of
`[Normal, AboveHigh, AboveHigh, AboveHigh, Normal]`, runs into the undefined erase,
so that sequence has no defined outcome. -/
theorem edge_sequence_calls (L : Nat) :
    runTicks (pollWarning L) ("temp", "1") "cpu" ∅ [(95, AboveHigh), (50, Normal)] =
      some ({"temp1ThresholdWarning"},
        [some ⟨"Sensor Threshold WarningHigh:cpu, value:95", L⟩, none]) ∧
    runTicks (pollWarning L) ("temp", "1") "cpu" ∅
        [(95, AboveHigh), (96, AboveHigh), (97, AboveHigh), (50, Normal)] =
      some ({"temp1ThresholdWarning"},
        [some ⟨"Sensor Threshold WarningHigh:cpu, value:95", L⟩, none, none, none]) ∧
    pollWarning L ∅ ("temp", "1") "cpu" 50 Normal = none ∧
    runTicks (pollWarning L) ("temp", "1") "cpu" ∅
        [(50, Normal), (95, AboveHigh), (96, AboveHigh), (97, AboveHigh), (50, Normal)] =
      none := by
  refine ⟨rfl, rfl, rfl, rfl⟩

/-- C2 (evaluation of the code).  A `"Deassert"` call whose key `event_key ++ sensor`
is in the set returns without a bus call and leaves the set as it is, the key
still in it; a `"Deassert"` call whose key is absent runs into the undefined erase
of the `end()` iterator. -/
theorem add_event_log_deassert (g : Finset String) (event_log sensor event_key : String)
    (level : Nat) :
    add_event_log g event_log sensor event_key "Deassert" level =
      if event_key ++ sensor ∈ g then some (g, none) else none :=
  add_event_log_deassert_eq g event_log sensor event_key level

/-- C3.  An `"Assert"` call always returns.  It makes no bus call and leaves the set
unchanged when the key `event_key ++ sensor` is already in the set; otherwise the
new set is the old one with exactly that key inserted and one bus call is made,
carrying the given message and level. -/
theorem add_event_log_assert (g : Finset String) (event_log sensor event_key : String)
    (level : Nat) :
    add_event_log g event_log sensor event_key "Assert" level =
      some (if event_key ++ sensor ∈ g then (g, none)
        else (insert (event_key ++ sensor) g, some ⟨event_log, level⟩)) :=
  add_event_log_assert_eq g event_log sensor event_key level

/-- C4 (evaluation of the code).  After the classifications `[AboveHigh, Normal]` for
sensor `("temp", "1")` from the empty set, the sensor's warning key is still in
the set although the most recent classification is `Normal`. -/
theorem key_present_after_normal (L : Nat) :
    (runTicks (pollWarning L) ("temp", "1") "cpu" ∅
        [(95, AboveHigh), (50, Normal)]).map Prod.fst =
      some {"temp1ThresholdWarning"} := by
  rfl

/-- C5.  Warning and Critical alarm state are independent.  A call of
`add_event_log` with event key `"ThresholdWarning"` that returns leaves the
membership of every `"ThresholdCritical"` key as it was, and from two sets that
differ only in `"ThresholdCritical"` keys it returns or not alike and makes the
same bus call; symmetrically for `"ThresholdCritical"` calls and
`"ThresholdWarning"` keys.  The same holds for the calls as the polling loop makes
them (category after the sensor id) in its `WARN` and `CRIT` cases.  Whether a call
returns depends on its own key only: it does unless it is a `"Deassert"` call whose
key is absent. -/
theorem warning_critical_independent :
    (∀ (g : Finset String) (event_log s assert_msg : String) (level : Nat),
      (∀ k ∈ keysOf "ThresholdCritical",
        ∀ r, add_event_log g event_log s "ThresholdWarning" assert_msg level = some r →
          (k ∈ r.1 ↔ k ∈ g)) ∧
      (∀ g', AgreeOutside (keysOf "ThresholdCritical") g g' →
        (add_event_log g event_log s "ThresholdWarning" assert_msg level).map Prod.snd =
          (add_event_log g' event_log s "ThresholdWarning" assert_msg level).map
            Prod.snd)) ∧
    (∀ (g : Finset String) (event_log s assert_msg : String) (level : Nat),
      (∀ k ∈ keysOf "ThresholdWarning",
        ∀ r, add_event_log g event_log s "ThresholdCritical" assert_msg level = some r →
          (k ∈ r.1 ↔ k ∈ g)) ∧
      (∀ g', AgreeOutside (keysOf "ThresholdWarning") g g' →
        (add_event_log g event_log s "ThresholdCritical" assert_msg level).map Prod.snd =
          (add_event_log g' event_log s "ThresholdCritical" assert_msg level).map
            Prod.snd)) ∧
    (∀ (L : Nat) (g : Finset String) (key : SensorKey) (sensor_name : String)
        (value cls : Int),
      (∀ k ∈ loopKeysOf "ThresholdCritical",
        ∀ r, pollWarning L g key sensor_name value cls = some r → (k ∈ r.1 ↔ k ∈ g)) ∧
      (∀ g', AgreeOutside (loopKeysOf "ThresholdCritical") g g' →
        (pollWarning L g key sensor_name value cls).map Prod.snd =
          (pollWarning L g' key sensor_name value cls).map Prod.snd)) ∧
    (∀ (L : Nat) (g : Finset String) (key : SensorKey) (sensor_name : String)
        (value cls : Int),
      (∀ k ∈ loopKeysOf "ThresholdWarning",
        ∀ r, pollCritical L g key sensor_name value cls = some r → (k ∈ r.1 ↔ k ∈ g)) ∧
      (∀ g', AgreeOutside (loopKeysOf "ThresholdWarning") g g' →
        (pollCritical L g key sensor_name value cls).map Prod.snd =
          (pollCritical L g' key sensor_name value cls).map Prod.snd)) ∧
    (∀ (g : Finset String) (event_log sensor event_key assert_msg : String) (level : Nat),
      add_event_log g event_log sensor event_key assert_msg level = none ↔
        assert_msg = "Deassert" ∧ event_key ++ sensor ∉ g) := by
  refine ⟨?_, ?_, ?_, ?_, add_event_log_eq_none_iff⟩
  · intro g event_log s assert_msg level
    refine ⟨?_, ?_⟩
    · rintro k ⟨s', rfl⟩ r hr
      exact add_event_log_frame _ _ _ _ _ _ _ (warning_key_ne_critical_key s s').symm r hr
    · intro g' h
      apply add_event_log_decision
      apply h
      rintro ⟨s', hs⟩
      exact warning_key_ne_critical_key s s' hs
  · intro g event_log s assert_msg level
    refine ⟨?_, ?_⟩
    · rintro k ⟨s', rfl⟩ r hr
      exact add_event_log_frame _ _ _ _ _ _ _ (warning_key_ne_critical_key s' s) r hr
    · intro g' h
      apply add_event_log_decision
      apply h
      rintro ⟨s', hs⟩
      exact warning_key_ne_critical_key s' s hs.symm
  · intro L g key sensor_name value cls
    obtain ⟨event_log, assert_msg, hcall⟩ :=
      thresholdSwitch_is_call "Sensor Threshold WarningHigh:" "Sensor Threshold WarningLow:"
        "ThresholdWarning" L key sensor_name value cls
    simp only [pollWarning, hcall]
    refine ⟨?_, ?_⟩
    · rintro k ⟨s', rfl⟩ r hr
      exact add_event_log_frame _ _ _ _ _ _ _
        (warning_loopKey_ne_critical_loopKey _ s').symm r hr
    · intro g' h
      apply add_event_log_decision
      apply h
      rintro ⟨s', hs⟩
      exact warning_loopKey_ne_critical_loopKey _ s' hs
  · intro L g key sensor_name value cls
    obtain ⟨event_log, assert_msg, hcall⟩ :=
      thresholdSwitch_is_call "Sensor Threshold CriticalHigh:" "Sensor Threshold CriticalLow:"
        "ThresholdCritical" L key sensor_name value cls
    simp only [pollCritical, hcall]
    refine ⟨?_, ?_⟩
    · rintro k ⟨s', rfl⟩ r hr
      exact add_event_log_frame _ _ _ _ _ _ _ (warning_loopKey_ne_critical_loopKey s' _) r hr
    · intro g' h
      apply add_event_log_decision
      apply h
      rintro ⟨s', hs⟩
      exact warning_loopKey_ne_critical_loopKey s' _ hs.symm

/-- C5 at a concrete input: with the critical key of `("temp", "1")` inserted, the
`WARN` case makes the same bus call as from the empty set, and leaves that critical
key in place. -/
theorem warning_critical_independent_witness :
    (pollWarning 3 ∅ ("temp", "1") "cpu" 95 AboveHigh).map Prod.snd =
        (pollWarning 3 {"temp1ThresholdCritical"} ("temp", "1") "cpu" 95 AboveHigh).map
          Prod.snd ∧
      ∃ r, pollWarning 3 {"temp1ThresholdCritical"} ("temp", "1") "cpu" 95 AboveHigh =
          some r ∧
        ("temp1ThresholdCritical" ∈ r.1 ↔
          "temp1ThresholdCritical" ∈ ({"temp1ThresholdCritical"} : Finset String)) := by
  have h := (warning_critical_independent.2.2.1 3 ∅ ("temp", "1") "cpu" 95 AboveHigh)
  have h' := (warning_critical_independent.2.2.1 3 {"temp1ThresholdCritical"}
    ("temp", "1") "cpu" 95 AboveHigh)
  refine ⟨h.2 _ ?_, _, rfl, h'.1 _ ⟨"temp1", by decide⟩ _ rfl⟩
  intro k hk
  have : k ≠ "temp1ThresholdCritical" := fun e => hk ⟨"temp1", by rw [e]; decide⟩
  simp [this]

/-! ## Lemmas on rounding to `double` -/

theorem log2Fuel_le (fuel n k : Nat) (h : n < 2 ^ (k + 1)) : log2Fuel fuel n ≤ k := by
  induction fuel generalizing n k with
  | zero => simp [log2Fuel]
  | succ fuel ih =>
    unfold log2Fuel
    split
    · rename_i h2
      cases k with
      | zero =>
        simp at h
        omega
      | succ k =>
        have hhalf : n / 2 < 2 ^ (k + 1) := by
          rw [Nat.div_lt_iff_lt_mul (by decide)]
          calc n < 2 ^ (k + 1 + 1) := h
            _ = 2 ^ (k + 1) * 2 := by rw [pow_succ]
        have := ih (n / 2) k hhalf
        omega
    · exact Nat.zero_le k

theorem natLog2_le (n k : Nat) (h : n < 2 ^ (k + 1)) : natLog2 n ≤ k :=
  log2Fuel_le n n k h

theorem pow2_pos (e : Int) : 0 < pow2 e := by
  unfold pow2
  split
  · exact_mod_cast Nat.pow_pos (by decide : 0 < 2)
  · apply div_pos one_pos
    exact_mod_cast Nat.pow_pos (by decide : 0 < 2)

theorem pow2_of_nonpos (e : Int) (h : e ≤ 0) :
    pow2 e = 1 / ((2 ^ (-e).toNat : Nat) : ℚ) := by
  unfold pow2
  by_cases h0 : 0 ≤ e
  · have : e = 0 := le_antisymm h h0
    subst this
    simp
  · rw [if_neg h0]

theorem floorLog2_intCast_le (n : Int) (h : n.natAbs < 2 ^ 53) : floorLog2 (n : ℚ) ≤ 52 := by
  unfold floorLog2
  have h1 : natLog2 n.natAbs ≤ 52 := natLog2_le _ 52 h
  have h2 : natLog2 1 = 0 := rfl
  simp only [Rat.intCast_num, Rat.intCast_den, h2]
  split <;> omega

theorem roundHalfEven_intCast (k : Int) : roundHalfEven (k : ℚ) = k := by
  unfold roundHalfEven
  simp

theorem roundDouble_intCast (n : Int) (h : n.natAbs < 2 ^ 53) :
    roundDouble (n : ℚ) = some (n : ℚ) := by
  by_cases h0 : n = 0
  · subst h0
    simp [roundDouble]
  · have hq : (n : ℚ) ≠ 0 := by exact_mod_cast h0
    unfold roundDouble
    rw [if_neg hq]
    have he : max (floorLog2 (n : ℚ) - 52) (-1074) ≤ 0 := by
      have := floorLog2_intCast_le n h
      apply max_le <;> omega
    generalize max (floorLog2 (n : ℚ) - 52) (-1074) = e at he
    simp only []
    rw [pow2_of_nonpos e he]
    generalize (-e).toNat = k
    have hk : (0 : ℚ) < ((2 ^ k : Nat) : ℚ) := by exact_mod_cast Nat.pow_pos (by decide : 0 < 2)
    have hscaled : |(n : ℚ)| / (1 / ((2 ^ k : Nat) : ℚ)) = ((|n| * (2 ^ k : Nat) : Int) : ℚ) := by
      rw [div_div_eq_mul_div, div_one]
      push_cast
      rfl
    simp only [hscaled, roundHalfEven_intCast]
    have hr : (((|n| * (2 ^ k : Nat) : Int) : ℚ)) * (1 / ((2 ^ k : Nat) : ℚ)) = ((|n| : Int) : ℚ) := by
      push_cast
      field_simp
    rw [hr]
    have hlt : ¬ pow2 1024 ≤ ((|n| : Int) : ℚ) := by
      rw [not_le]
      have h1 : ((|n| : Int) : ℚ) < ((2 ^ 53 : Nat) : ℚ) := by
        have : |n| < ((2 ^ 53 : Nat) : Int) := by
          rw [Int.abs_eq_natAbs]
          exact_mod_cast h
        exact_mod_cast this
      have h2 : ((2 ^ 53 : Nat) : ℚ) ≤ pow2 1024 := by
        unfold pow2
        rw [if_pos (by decide)]
        have : (2 : Nat) ^ 53 ≤ 2 ^ (1024 : Int).toNat :=
          Nat.pow_le_pow_right (by decide) (by decide)
        exact Nat.cast_le.mpr this
      exact lt_of_lt_of_le h1 h2
    rw [if_neg hlt]
    congr 1
    by_cases hneg : (n : ℚ) < 0
    · rw [if_pos hneg]
      have : n < 0 := by exact_mod_cast hneg
      rw [abs_of_neg this]
      push_cast
      ring
    · rw [if_neg hneg]
      have : 0 ≤ n := by exact_mod_cast not_lt.mp hneg
      rw [abs_of_nonneg this]

/-! ## Lemmas on value adjustment -/

theorem recordStep_fst_of_nonneg (sensorRecord : RecordMap) (sensor : SensorKey) (v : Int)
    (hv : 0 ≤ v) : (recordStep sensorRecord sensor v).1 = v := by
  unfold recordStep
  cases sensorRecord sensor with
  | none => rfl
  | some rc => simp [not_lt.mpr hv]

theorem recordStep_of_record (sensorRecord : RecordMap) (sensor : SensorKey) (raw : Int)
    (rc : valueRecord) (hrec : sensorRecord sensor = some rc) :
    recordStep sensorRecord sensor raw =
      (if raw < 0 then rc.record_value else raw,
        Function.update sensorRecord sensor
          (some { record_value := if raw < 0 then rc.record_value else raw })) := by
  unfold recordStep
  rw [hrec]

theorem adjustValue_of_reaches (flag : Bool) (sensorAdjusts : AdjustMap)
    (sensorRecord : RecordMap) (sensor : SensorKey) (raw : Int)
    (h : ¬ (flag = true ∧ (recordStep sensorRecord sensor raw).1 < 0)) :
    (adjustValue flag sensorAdjusts sensorRecord sensor raw).1 =
      calibrate sensorAdjusts sensor (recordStep sensorRecord sensor raw).1 := by
  unfold adjustValue
  simp only [if_neg h]

theorem adjustValue_snd (flag : Bool) (sensorAdjusts : AdjustMap)
    (sensorRecord : RecordMap) (sensor : SensorKey) (raw : Int) :
    (adjustValue flag sensorAdjusts sensorRecord sensor raw).2 =
      (recordStep sensorRecord sensor raw).2 := by
  unfold adjustValue
  by_cases h : flag = true ∧ (recordStep sensorRecord sensor raw).1 < 0
  · simp only [if_pos h]
  · simp only [if_neg h]

theorem truncTowardZero_of_nonneg (x : ℚ) (hx : 0 ≤ x) : truncTowardZero x = ⌊x⌋ := by
  simp [truncTowardZero, hx]

theorem doubleToInt_of_nonneg (x : ℚ) (hx : 0 ≤ x) (hmax : ⌊x⌋ ≤ INT_MAX) :
    doubleToInt x = some ⌊x⌋ := by
  rw [doubleToInt_eq, truncTowardZero_of_nonneg x hx, if_pos]
  refine ⟨?_, hmax⟩
  have h0 : (0 : Int) ≤ ⌊x⌋ := Int.floor_nonneg.mpr hx
  have hmin : INT_MIN ≤ 0 := by decide
  exact le_trans hmin h0

theorem calibrate_eq (sensorAdjusts : AdjustMap) (sensor : SensorKey) (v : Int) :
    calibrate sensorAdjusts sensor v =
      match sensorAdjusts sensor with
      | none => some v
      | some a =>
        (roundDouble ((v : ℚ) * a.gain)).bind fun product =>
          (roundDouble (product + (a.offset : ℚ))).bind fun sum =>
            (truncInt sum).bind fun t =>
              (roundDouble ((t : ℚ) * a.coefficient)).bind fun product =>
                truncInt product := by
  unfold calibrate
  cases sensorAdjusts sensor with
  | none => rfl
  | some a =>
    simp only [doubleToInt_eq, truncInt, doubleMul, doubleAdd]

theorem doubleToInt_intCast (n : Int) (h0 : 0 ≤ n) (hmax : n ≤ INT_MAX) :
    doubleToInt (n : ℚ) = some n := by
  have hx : (0 : ℚ) ≤ (n : ℚ) := by exact_mod_cast h0
  have h := doubleToInt_of_nonneg (n : ℚ) hx (by rw [Int.floor_intCast]; exact hmax)
  rw [h, Int.floor_intCast]

theorem natAbs_lt_of_int_range (n : Int) (h0 : 0 ≤ n) (hmax : n ≤ INT_MAX) :
    n.natAbs < 2 ^ 53 := by
  unfold INT_MAX at hmax
  omega

/-- With the default entry (gain 1, offset 0, coefficient 1) the calibration of a
non-negative `int` is the value itself: every operation is exact. -/
theorem calibrate_default (sensorAdjusts : AdjustMap) (sensor : SensorKey) (v : Int)
    (hv : 0 ≤ v) (hmax : v ≤ INT_MAX) (h : sensorAdjusts sensor = some {}) :
    calibrate sensorAdjusts sensor v = some v := by
  unfold calibrate
  rw [h]
  have hr := roundDouble_intCast v (natAbs_lt_of_int_range v hv hmax)
  have hi := doubleToInt_intCast v hv hmax
  simp only [doubleMul, doubleAdd, mul_one, Int.cast_zero, add_zero, hr, hi,
    Option.some_bind]

/-! ## Value adjustment: claims C6-C10 -/

/-- C6 (counterexample).  With gain 1/2, offset 0, coefficient 2 and raw value 1,
`adjustValue` returns 0 while `floor((v*g + o) * c)` is 1; with gain 1, offset -1,
coefficient 1/2 and raw value 0 it returns 0 while `floor((v*g + o) * c)` is -1.
All the `double` operations are exact at these inputs. -/
theorem adjustValue_ne_floor_of_product :
    ((adjustValue false (adjustsFor ⟨1 / 2, 0, 2⟩) noRecords ("temp", "1") 1).1 = some 0 ∧
      ⌊(((1 : Int) : ℚ) * (1 / 2) + ((0 : Int) : ℚ)) * 2⌋ = 1) ∧
    ((adjustValue false (adjustsFor ⟨1, -1, 1 / 2⟩) noRecords ("temp", "1") 0).1 = some 0 ∧
      ⌊(((0 : Int) : ℚ) * 1 + ((-1 : Int) : ℚ)) * (1 / 2)⌋ = -1) := by
  refine ⟨⟨?_, ?_⟩, ?_, ?_⟩
  · decide!
  · with_unfolding_all decide
  · decide!
  · with_unfolding_all decide

/-- C6 (amended).  For a sensor with calibration entry `(g, o, c)` and a
non-negative raw value `v`, let `p` be the `double` product `v*g`, `s` the `double`
sum `p + o` and `q` the `double` product `floor(s) * c`.  When `s` and `q` are not
negative and the results are within `int` range, `adjustValue` returns
`floor(q)`: the sum is cut to an integer before it is multiplied by the
coefficient.  When the three operations are exact, this is
`floor(floor(v*g + o) * c)`. -/
theorem adjustValue_floor_of_floor (flag : Bool) (sensorAdjusts : AdjustMap)
    (sensorRecord : RecordMap) (sensor : SensorKey) (v : Int) (a : valueAdjust)
    (p s q : ℚ)
    (ha : sensorAdjusts sensor = some a) (hv : 0 ≤ v)
    (hp : roundDouble ((v : ℚ) * a.gain) = some p)
    (hs : roundDouble (p + (a.offset : ℚ)) = some s)
    (hs0 : 0 ≤ s) (hr1 : ⌊s⌋ ≤ INT_MAX)
    (hq : roundDouble (((⌊s⌋ : Int) : ℚ) * a.coefficient) = some q)
    (hq0 : 0 ≤ q) (hr2 : ⌊q⌋ ≤ INT_MAX) :
    (adjustValue flag sensorAdjusts sensorRecord sensor v).1 = some ⌊q⌋ ∧
    (p = (v : ℚ) * a.gain → s = p + (a.offset : ℚ) →
      q = ((⌊s⌋ : Int) : ℚ) * a.coefficient →
      (adjustValue flag sensorAdjusts sensorRecord sensor v).1 =
        some ⌊((⌊(v : ℚ) * a.gain + (a.offset : ℚ)⌋ : Int) : ℚ) * a.coefficient⌋) := by
  have hstep := recordStep_fst_of_nonneg sensorRecord sensor v hv
  have hreach : ¬ (flag = true ∧ (recordStep sensorRecord sensor v).1 < 0) := by
    rw [hstep]
    exact fun h => absurd h.2 (not_lt.mpr hv)
  have main : (adjustValue flag sensorAdjusts sensorRecord sensor v).1 = some ⌊q⌋ := by
    rw [adjustValue_of_reaches _ _ _ _ _ hreach, hstep]
    unfold calibrate
    rw [ha]
    simp only [doubleMul, doubleAdd, hp, hs, Option.some_bind,
      doubleToInt_of_nonneg s hs0 hr1, hq]
    exact doubleToInt_of_nonneg q hq0 hr2
  refine ⟨main, ?_⟩
  intro ep es eq
  rw [main, eq, es, ep]

/-- C6 (amended) at gain 1/2, offset 0, coefficient 2, raw value 3, where the
operations are exact: the result is `floor(floor(3/2) * 2) = 2`; and at the `double`
gain nearest to 0.7, offset 0, coefficient 1, raw value 10, where the `double`
product is 7: the result is 7. -/
theorem adjustValue_floor_of_floor_witness :
    (adjustValue false (adjustsFor ⟨1 / 2, 0, 2⟩) noRecords ("temp", "1") 3).1 = some 2 ∧
      (adjustValue false (adjustsFor ⟨3152519739159347 / 4503599627370496, 0, 1⟩) noRecords
        ("temp", "1") 10).1 = some 7 := by
  have h := (adjustValue_floor_of_floor false (adjustsFor ⟨1 / 2, 0, 2⟩) noRecords
    ("temp", "1") 3 ⟨1 / 2, 0, 2⟩ (3 / 2) (3 / 2) 2 rfl (by decide) (by decide!)
    (by decide!) (by norm_num) (by with_unfolding_all decide) (by decide!) (by norm_num)
    (by with_unfolding_all decide)).1
  have h' := (adjustValue_floor_of_floor false
    (adjustsFor ⟨3152519739159347 / 4503599627370496, 0, 1⟩) noRecords ("temp", "1") 10
    ⟨3152519739159347 / 4503599627370496, 0, 1⟩ 7 7 7 rfl (by decide) (by decide!)
    (by decide!) (by norm_num) (by with_unfolding_all decide) (by decide!) (by norm_num)
    (by with_unfolding_all decide)).1
  refine ⟨h.trans ?_, h'.trans ?_⟩
  · with_unfolding_all decide
  · with_unfolding_all decide

/-- C7.  Whenever the value `v` left by the record step reaches the calibration
step (it is not returned early by the negative-value build mode), `adjustValue`
returns `v` as is for a sensor without calibration entry, and for a sensor with
entry `(g, o, c)` it makes two passes in this order: `t` is the `double` sum of
the `double` product `v*g` and `o`, truncated toward zero, and the result is the
`double` product `t*c`, truncated toward zero; an infinite `double` or a
truncation outside the `int` range has no result. -/
theorem adjustValue_two_passes (flag : Bool) (sensorAdjusts : AdjustMap)
    (sensorRecord : RecordMap) (sensor : SensorKey) (raw : Int)
    (hreach : ¬ (flag = true ∧ (recordStep sensorRecord sensor raw).1 < 0)) :
    (adjustValue flag sensorAdjusts sensorRecord sensor raw).1 =
      match sensorAdjusts sensor with
      | none => some (recordStep sensorRecord sensor raw).1
      | some a =>
        (roundDouble (((recordStep sensorRecord sensor raw).1 : ℚ) * a.gain)).bind
          fun product =>
            (roundDouble (product + (a.offset : ℚ))).bind fun sum =>
              (truncInt sum).bind fun t =>
                (roundDouble ((t : ℚ) * a.coefficient)).bind fun product =>
                  truncInt product := by
  rw [adjustValue_of_reaches _ _ _ _ _ hreach, calibrate_eq]

/-- C7 at gain 3/2, offset -10, coefficient 1/2, raw value 5:
`trunc(5 * 3/2 - 10) = trunc(-5/2) = -2`, then `trunc(-2 * 1/2) = -1`; at the
`double` gain nearest to 0.7 and raw value 10 the `double` product is 7 and the
result 7; at the `double` gain nearest to 0.29 and raw value 100 the `double`
product is below 29 and the result 28. -/
theorem adjustValue_two_passes_witness :
    (adjustValue true (adjustsFor ⟨3 / 2, -10, 1 / 2⟩) noRecords ("temp", "1") 5).1 =
        some (-1) ∧
      truncInt (((5 : Int) : ℚ) * (3 / 2) + ((-10 : Int) : ℚ)) = some (-2) ∧
      truncInt (((-2 : Int) : ℚ) * (1 / 2)) = some (-1) ∧
      roundDouble (7 / 10) = some (3152519739159347 / 4503599627370496) ∧
      (adjustValue true (adjustsFor ⟨3152519739159347 / 4503599627370496, 0, 1⟩) noRecords
        ("temp", "1") 10).1 = some 7 ∧
      roundDouble (29 / 100) = some (5224175567749775 / 18014398509481984) ∧
      (adjustValue true (adjustsFor ⟨5224175567749775 / 18014398509481984, 0, 1⟩) noRecords
        ("temp", "1") 100).1 = some 28 := by
  have h := adjustValue_two_passes true (adjustsFor ⟨3 / 2, -10, 1 / 2⟩) noRecords
    ("temp", "1") 5 (by decide)
  have h7 := adjustValue_two_passes true
    (adjustsFor ⟨3152519739159347 / 4503599627370496, 0, 1⟩) noRecords ("temp", "1") 10
    (by decide)
  have h29 := adjustValue_two_passes true
    (adjustsFor ⟨5224175567749775 / 18014398509481984, 0, 1⟩) noRecords ("temp", "1") 100
    (by decide)
  refine ⟨h.trans ?_, ?_, ?_, ?_, h7.trans ?_, ?_, h29.trans ?_⟩ <;> decide!

/-- C8.  Calibration identity.  For a sensor with no entry in `sensorAdjusts`, or
with an entry holding the defaults (gain 1, offset 0, coefficient 1), and every
non-negative `int` value `v`, `adjustValue` returns `v`, with or without a
last-good record and in either build mode.  A sensor registered by `addValue`
without `GAIN`, `OFFSET` and `COEFFICIENT` settings, and not in the store before,
has no entry, so `adjustValue` returns `v` for it. -/
theorem adjustValue_identity (flag : Bool) (sensorAdjusts : AdjustMap)
    (sensorRecord : RecordMap) (sensor : SensorKey) (v : Int)
    (hv : 0 ≤ v) (hmax : v ≤ INT_MAX) :
    ((sensorAdjusts sensor = none ∨ sensorAdjusts sensor = some {}) →
      (adjustValue flag sensorAdjusts sensorRecord sensor v).1 = some v) ∧
    (∀ val : Int, sensorAdjusts sensor = none →
      (adjustValue flag
        (addValue flag sensorAdjusts sensorRecord sensor val none none none).2.1
        (addValue flag sensorAdjusts sensorRecord sensor val none none none).2.2
        sensor v).1 = some v) := by
  have key : ∀ (adj : AdjustMap) (rec : RecordMap),
      (adj sensor = none ∨ adj sensor = some {}) →
      (adjustValue flag adj rec sensor v).1 = some v := by
    intro adj rec h
    have hstep := recordStep_fst_of_nonneg rec sensor v hv
    have hreach : ¬ (flag = true ∧ (recordStep rec sensor v).1 < 0) := by
      rw [hstep]
      exact fun h => absurd h.2 (not_lt.mpr hv)
    rw [adjustValue_of_reaches _ _ _ _ _ hreach, hstep]
    rcases h with h | h
    · unfold calibrate
      rw [h]
    · exact calibrate_default adj sensor v hv hmax h
  refine ⟨key sensorAdjusts sensorRecord, ?_⟩
  intro val hnone
  apply key
  left
  simpa [addValue] using hnone

/-- C8 at the sensor `("temp", "1")` with a default-valued entry, a record holding
42 and the value 7. -/
theorem adjustValue_identity_witness :
    (adjustValue true (adjustsFor {}) (recordFor 42) ("temp", "1") 7).1 = some 7 ∧
      (adjustValue true
        (addValue true noAdjusts noRecords ("temp", "1") 5 none none none).2.1
        (addValue true noAdjusts noRecords ("temp", "1") 5 none none none).2.2
        ("temp", "1") 7).1 = some 7 :=
  ⟨(adjustValue_identity true (adjustsFor {}) (recordFor 42) ("temp", "1") 7
      (by decide) (by decide)).1 (Or.inr rfl),
    (adjustValue_identity true noAdjusts noRecords ("temp", "1") 7
      (by decide) (by decide)).2 5 rfl⟩

/-- C9.  Fallback.  For a sensor whose last-good record holds a non-negative `r`
and for every negative raw value, `adjustValue` returns what calibrating `r`
returns (which is also what it returns for the raw value `r` itself), whatever the
negative raw value is, and the record still holds `r` after the call. -/
theorem adjustValue_fallback (flag : Bool) (sensorAdjusts : AdjustMap)
    (sensorRecord : RecordMap) (sensor : SensorKey) (rc : valueRecord) (raw : Int)
    (hrec : sensorRecord sensor = some rc) (hr : 0 ≤ rc.record_value) (hraw : raw < 0) :
    (adjustValue flag sensorAdjusts sensorRecord sensor raw).1 =
        calibrate sensorAdjusts sensor rc.record_value ∧
      (adjustValue flag sensorAdjusts sensorRecord sensor raw).1 =
        (adjustValue flag sensorAdjusts sensorRecord sensor rc.record_value).1 ∧
      (adjustValue flag sensorAdjusts sensorRecord sensor raw).2 sensor = some rc := by
  have hs := recordStep_of_record sensorRecord sensor raw rc hrec
  simp only [hraw, if_true] at hs
  have h1 : (recordStep sensorRecord sensor raw).1 = rc.record_value := by rw [hs]
  have hreach : ¬ (flag = true ∧ (recordStep sensorRecord sensor raw).1 < 0) := by
    rw [h1]
    exact fun h => absurd h.2 (not_lt.mpr hr)
  have h2 := recordStep_fst_of_nonneg sensorRecord sensor rc.record_value hr
  have hreach2 :
      ¬ (flag = true ∧ (recordStep sensorRecord sensor rc.record_value).1 < 0) := by
    rw [h2]
    exact fun h => absurd h.2 (not_lt.mpr hr)
  refine ⟨?_, ?_, ?_⟩
  · rw [adjustValue_of_reaches _ _ _ _ _ hreach, h1]
  · rw [adjustValue_of_reaches _ _ _ _ _ hreach, adjustValue_of_reaches _ _ _ _ _ hreach2,
      h1, h2]
  · rw [adjustValue_snd, hs]
    simp

/-- C9 at record value 42 and raw value -1, without calibration entry: the result
is 42, where calibrating -1 would give -1, and the record still holds 42. -/
theorem adjustValue_fallback_witness :
    (adjustValue false noAdjusts (recordFor 42) ("temp", "1") (-1)).1 = some 42 ∧
      calibrate noAdjusts ("temp", "1") (-1) = some (-1) ∧
      (adjustValue false noAdjusts (recordFor 42) ("temp", "1") (-1)).2 ("temp", "1") =
        some { record_value := 42 } := by
  have h := adjustValue_fallback false noAdjusts (recordFor 42) ("temp", "1")
    { record_value := 42 } (-1) rfl (by decide) (by decide)
  exact ⟨h.1.trans rfl, rfl, h.2.2⟩

/-- C10 (counterexample).  With a record holding 42, after `adjustValue` on the raw
value -1 the record holds 42 and not -1. -/
theorem record_not_overwritten_by_negative :
    (adjustValue false noAdjusts (recordFor 42) ("temp", "1") (-1)).2 ("temp", "1") =
        some { record_value := 42 } ∧
      (adjustValue false noAdjusts (recordFor 42) ("temp", "1") (-1)).2 ("temp", "1") ≠
        some { record_value := -1 } := by
  constructor <;> decide

/-- C10 (amended).  For a sensor that has a last-good record, after `adjustValue`
the record holds the raw input when it is non-negative and keeps its previous
value when the raw input is negative; the records of other sensors are unchanged. -/
theorem adjustValue_record (flag : Bool) (sensorAdjusts : AdjustMap)
    (sensorRecord : RecordMap) (sensor : SensorKey) (rc : valueRecord) (raw : Int)
    (hrec : sensorRecord sensor = some rc) :
    (adjustValue flag sensorAdjusts sensorRecord sensor raw).2 sensor =
        some { record_value := if raw < 0 then rc.record_value else raw } ∧
      ∀ other, other ≠ sensor →
        (adjustValue flag sensorAdjusts sensorRecord sensor raw).2 other =
          sensorRecord other := by
  rw [adjustValue_snd, recordStep_of_record sensorRecord sensor raw rc hrec]
  refine ⟨by simp, ?_⟩
  intro other hne
  simp [Function.update, hne]

/-- C10 (amended) at a record holding 42: the raw value 17 is stored, the raw value
-1 leaves 42 in place. -/
theorem adjustValue_record_witness :
    (adjustValue false noAdjusts (recordFor 42) ("temp", "1") 17).2 ("temp", "1") =
        some { record_value := 17 } ∧
      (adjustValue true noAdjusts (recordFor 42) ("temp", "1") (-1)).2 ("temp", "1") =
        some { record_value := 42 } :=
  ⟨(adjustValue_record false noAdjusts (recordFor 42) ("temp", "1")
      { record_value := 42 } 17 rfl).1,
    (adjustValue_record true noAdjusts (recordFor 42) ("temp", "1")
      { record_value := 42 } (-1) rfl).1⟩

/-! ## Type attribute lookup: claim C11 -/

theorem find_first {α : Type} (p : α → Bool) (l : List α) :
    (l.find? p = none ∧ ∀ x ∈ l, p x = false) ∨
    (∃ pre row post, l = pre ++ row :: post ∧ (∀ x ∈ pre, p x = false) ∧ p row = true ∧
      l.find? p = some row) := by
  induction l with
  | nil => left; simp
  | cons a l ih =>
    by_cases h : p a = true
    · right
      exact ⟨[], a, l, rfl, by simp, h, by simp [List.find?, h]⟩
    · have hf : p a = false := by simpa using h
      rcases ih with ⟨hn, hall⟩ | ⟨pre, row, post, hl, hpre, hrow, hfind⟩
      · left
        refine ⟨by simp [List.find?, hf, hn], ?_⟩
        intro x hx
        rcases List.mem_cons.mp hx with rfl | hx
        · exact hf
        · exact hall x hx
      · right
        refine ⟨a :: pre, row, post, by simp [hl], ?_, hrow, by simp [List.find?, hf, hfind]⟩
        intro x hx
        rcases List.mem_cons.mp hx with rfl | hx
        · exact hf
        · exact hpre x hx

/-- C11.  The lookup `getAttributes` is a total function of the class name: it
compares the name with the class column (the first component) of the rows of
`typeAttrMap`, in order.  Its result is `true` exactly when some row has that
class; then the output record is the first such row (no earlier row has the
class), otherwise the result is `false` and the output record is the one passed
in.  Row by row: the class `ctemp` gives degrees C, scale -3, `"temperature"`, and
so on down the table of 9 rows, at most 10. -/
theorem getAttributes_first_row (ty : HwmonTypes) (type : String) (attributes : Attributes) :
    getAttributes ty type attributes =
      (if type = ty.ctemp then
        (true, (ty.ctemp, ValueInterfaceUnit.DegreesC, -3, "temperature"))
      else if type = ty.cfan then
        (true, (ty.cfan, ValueInterfaceUnit.RPMS, 0, "fan_tach"))
      else if type = ty.cvolt then
        (true, (ty.cvolt, ValueInterfaceUnit.Volts, -3, "voltage"))
      else if type = ty.ccurr then
        (true, (ty.ccurr, ValueInterfaceUnit.Amperes, -3, "current"))
      else if type = ty.cenergy then
        (true, (ty.cenergy, ValueInterfaceUnit.Joules, -6, "energy"))
      else if type = ty.cpower then
        (true, (ty.cpower, ValueInterfaceUnit.Watts, -6, "power"))
      else if type = ty.cpwm then
        (true, (ty.cpwm, ValueInterfaceUnit.RPMS, 0, "pwm"))
      else if type = ty.cmicron_temp then
        (true, (ty.cmicron_temp, ValueInterfaceUnit.DegreesC, -3, "temperature"))
      else if type = ty.cpm963_temp then
        (true, (ty.cpm963_temp, ValueInterfaceUnit.DegreesC, -3, "temperature"))
      else (false, attributes)) ∧
    ((getAttributes ty type attributes).1 = true ↔
      ∃ row ∈ typeAttrMap ty, row.1 = type) ∧
    ((getAttributes ty type attributes).1 = true →
      ∃ pre row post, typeAttrMap ty = pre ++ row :: post ∧
        (∀ r ∈ pre, r.1 ≠ type) ∧ row.1 = type ∧
        (getAttributes ty type attributes).2 = row) ∧
    ((getAttributes ty type attributes).1 = false →
      (getAttributes ty type attributes).2 = attributes) ∧
    (typeAttrMap ty).length = 9 ∧ (typeAttrMap ty).length ≤ 10 := by
  have hlen : (typeAttrMap ty).length = 9 := rfl
  refine ⟨?_, ?_, ?_, ?_, hlen, by rw [hlen]; decide⟩
  · unfold getAttributes typeAttrMap
    by_cases h1 : type = ty.ctemp
    · rw [List.find?_cons_of_pos _ (by simpa [getHwmonType] using h1), if_pos h1]
    rw [List.find?_cons_of_neg _ (by simpa [getHwmonType] using h1), if_neg h1]
    by_cases h2 : type = ty.cfan
    · rw [List.find?_cons_of_pos _ (by simpa [getHwmonType] using h2), if_pos h2]
    rw [List.find?_cons_of_neg _ (by simpa [getHwmonType] using h2), if_neg h2]
    by_cases h3 : type = ty.cvolt
    · rw [List.find?_cons_of_pos _ (by simpa [getHwmonType] using h3), if_pos h3]
    rw [List.find?_cons_of_neg _ (by simpa [getHwmonType] using h3), if_neg h3]
    by_cases h4 : type = ty.ccurr
    · rw [List.find?_cons_of_pos _ (by simpa [getHwmonType] using h4), if_pos h4]
    rw [List.find?_cons_of_neg _ (by simpa [getHwmonType] using h4), if_neg h4]
    by_cases h5 : type = ty.cenergy
    · rw [List.find?_cons_of_pos _ (by simpa [getHwmonType] using h5), if_pos h5]
    rw [List.find?_cons_of_neg _ (by simpa [getHwmonType] using h5), if_neg h5]
    by_cases h6 : type = ty.cpower
    · rw [List.find?_cons_of_pos _ (by simpa [getHwmonType] using h6), if_pos h6]
    rw [List.find?_cons_of_neg _ (by simpa [getHwmonType] using h6), if_neg h6]
    by_cases h7 : type = ty.cpwm
    · rw [List.find?_cons_of_pos _ (by simpa [getHwmonType] using h7), if_pos h7]
    rw [List.find?_cons_of_neg _ (by simpa [getHwmonType] using h7), if_neg h7]
    by_cases h8 : type = ty.cmicron_temp
    · rw [List.find?_cons_of_pos _ (by simpa [getHwmonType] using h8), if_pos h8]
    rw [List.find?_cons_of_neg _ (by simpa [getHwmonType] using h8), if_neg h8]
    by_cases h9 : type = ty.cpm963_temp
    · rw [List.find?_cons_of_pos _ (by simpa [getHwmonType] using h9), if_pos h9]
    rw [List.find?_cons_of_neg _ (by simpa [getHwmonType] using h9), if_neg h9]
    rfl
  · rcases find_first (fun e => type == getHwmonType e) (typeAttrMap ty) with
      ⟨hn, hall⟩ | ⟨pre, row, post, hl, hpre, hrow, hfind⟩
    · simp only [getAttributes, hn]
      constructor
      · intro h
        exact absurd h (by simp)
      · rintro ⟨row, hmem, hrow⟩
        have := hall row hmem
        simp [getHwmonType, hrow] at this
    · simp only [getAttributes, hfind]
      refine ⟨fun _ => ⟨row, ?_, ?_⟩, fun _ => trivial⟩
      · rw [hl]
        simp
      · have : type = row.1 := by simpa [getHwmonType] using hrow
        exact this.symm
  · rcases find_first (fun e => type == getHwmonType e) (typeAttrMap ty) with
      ⟨hn, hall⟩ | ⟨pre, row, post, hl, hpre, hrow, hfind⟩
    · simp [getAttributes, hn]
    · intro _
      refine ⟨pre, row, post, hl, ?_, ?_, by simp [getAttributes, hfind]⟩
      · intro r hr e
        have := hpre r hr
        simp [getHwmonType, e] at this
      · have : type = row.1 := by simpa [getHwmonType] using hrow
        exact this.symm
  · rcases find_first (fun e => type == getHwmonType e) (typeAttrMap ty) with
      ⟨hn, hall⟩ | ⟨pre, row, post, hl, hpre, hrow, hfind⟩
    · simp [getAttributes, hn]
    · simp [getAttributes, hfind]

/-- The lookup at the upstream class names, with both extra rows named `"temp"` as well:
`"fan"` is found in the second row, `"temp"` in the first of its three rows, and
`"humidity"` is not found and leaves the output as passed in. -/
theorem getAttributes_examples :
    getAttributes ⟨"temp", "fan", "in", "curr", "energy", "power", "pwm", "temp", "temp"⟩
        "fan" ("", ValueInterfaceUnit.Volts, 7, "x") =
      (true, ("fan", ValueInterfaceUnit.RPMS, 0, "fan_tach")) ∧
    getAttributes ⟨"temp", "fan", "in", "curr", "energy", "power", "pwm", "temp", "temp"⟩
        "temp" ("", ValueInterfaceUnit.Volts, 7, "x") =
      (true, ("temp", ValueInterfaceUnit.DegreesC, -3, "temperature")) ∧
    getAttributes ⟨"temp", "fan", "in", "curr", "energy", "power", "pwm", "temp", "temp"⟩
        "humidity" ("", ValueInterfaceUnit.Volts, 7, "x") =
      (false, ("", ValueInterfaceUnit.Volts, 7, "x")) := by
  refine ⟨?_, ?_, ?_⟩ <;> decide

/-! ## Last-good record over call sequences: claim C14 -/

theorem lastGood_nonneg (init : Int) (raws : List Int) (h : 0 ≤ init) :
    0 ≤ lastGood init raws := by
  unfold lastGood
  induction raws generalizing init with
  | nil => exact h
  | cons raw rest ih =>
    simp only [List.foldl_cons]
    apply ih
    split
    · exact h
    · rename_i hneg
      exact not_lt.mp hneg

theorem lastGood_append (init : Int) (xs ys : List Int) :
    lastGood init (xs ++ ys) = lastGood (lastGood init xs) ys := by
  simp [lastGood, List.foldl_append]

theorem lastGood_of_all_neg (init : Int) (fails : List Int) (h : ∀ x ∈ fails, x < 0) :
    lastGood init fails = init := by
  unfold lastGood
  induction fails with
  | nil => rfl
  | cons x rest ih =>
    simp only [List.foldl_cons, if_pos (h x (List.mem_cons_self _ _))]
    exact ih (fun y hy => h y (List.mem_cons_of_mem _ hy))

theorem adjustValue_record_at (flag : Bool) (sensorAdjusts : AdjustMap)
    (sensorRecord : RecordMap) (sensor : SensorKey) (r raw : Int)
    (hrec : sensorRecord sensor = some { record_value := r }) :
    (adjustValue flag sensorAdjusts sensorRecord sensor raw).2 sensor =
      some { record_value := lastGood r [raw] } := by
  rw [adjustValue_snd, recordStep_of_record sensorRecord sensor raw _ hrec]
  simp [lastGood]

theorem adjustCalls_record_at (flag : Bool) (sensorAdjusts : AdjustMap)
    (sensor : SensorKey) (raws : List Int) (sensorRecord : RecordMap) (r : Int)
    (hrec : sensorRecord sensor = some { record_value := r }) :
    adjustCalls flag sensorAdjusts sensor sensorRecord raws sensor =
      some { record_value := lastGood r raws } := by
  induction raws generalizing sensorRecord r with
  | nil => simpa [adjustCalls, lastGood] using hrec
  | cons raw rest ih =>
    have h1 := adjustValue_record_at flag sensorAdjusts sensorRecord sensor r raw hrec
    have h2 := ih _ _ h1
    simp only [adjustCalls]
    rw [h2]
    simp [lastGood]

theorem addValue_record_at (flag : Bool) (sensorAdjusts : AdjustMap)
    (sensorRecord : RecordMap) (sensor : SensorKey) (val : Int) (gain : Option ℚ)
    (offset : Option Int) (coefficient : Option ℚ) :
    (addValue flag sensorAdjusts sensorRecord sensor val gain offset coefficient).2.2 sensor =
      some { record_value := lastGood 0 [val] } := by
  unfold addValue
  apply adjustValue_record_at
  simp

theorem registeredThen_record_at (flag : Bool) (sensorAdjusts : AdjustMap)
    (sensorRecord : RecordMap) (sensor : SensorKey) (val : Int) (gain : Option ℚ)
    (offset : Option Int) (coefficient : Option ℚ) (raws : List Int) :
    (registeredThen flag sensorAdjusts sensorRecord sensor val gain offset coefficient raws).2
        sensor = some { record_value := lastGood 0 (val :: raws) } := by
  have h := addValue_record_at flag sensorAdjusts sensorRecord sensor val gain offset
    coefficient
  show adjustCalls flag _ sensor _ raws sensor = _
  rw [adjustCalls_record_at _ _ _ _ _ _ h]
  simp [lastGood]

/-- C14.  For a sensor registered through `addValue` (record created with 0, then
the first read `val`) and every sequence `raws` of raw inputs of further
`adjustValue` calls on it: the record holds the most recent non-negative input
(0 when there was none), which is never negative; for every next raw input the
value that reaches the calibration step is that most recent non-negative input,
never negative, so in either build mode the result is the calibration of that
value (the negative early return is not taken); and after any run of failed
(negative) reads a further failed read still falls back to the same value. -/
theorem registered_record_nonneg (flag : Bool) (sensorAdjusts : AdjustMap)
    (sensorRecord : RecordMap) (sensor : SensorKey) (val : Int) (gain : Option ℚ)
    (offset : Option Int) (coefficient : Option ℚ) (raws : List Int) (raw : Int) :
    (registeredThen flag sensorAdjusts sensorRecord sensor val gain offset coefficient raws).2
        sensor = some { record_value := lastGood 0 (val :: raws) } ∧
    0 ≤ lastGood 0 (val :: raws) ∧
    (recordStep
        (registeredThen flag sensorAdjusts sensorRecord sensor val gain offset coefficient
          raws).2 sensor raw).1 = lastGood 0 (val :: raws ++ [raw]) ∧
    0 ≤ lastGood 0 (val :: raws ++ [raw]) ∧
    (adjustValue flag
        (registeredThen flag sensorAdjusts sensorRecord sensor val gain offset coefficient
          raws).1
        (registeredThen flag sensorAdjusts sensorRecord sensor val gain offset coefficient
          raws).2 sensor raw).1 =
      calibrate
        (registeredThen flag sensorAdjusts sensorRecord sensor val gain offset coefficient
          raws).1 sensor (lastGood 0 (val :: raws ++ [raw])) ∧
    (∀ fails : List Int, (∀ x ∈ fails, x < 0) → raw < 0 →
      (recordStep
        (registeredThen flag sensorAdjusts sensorRecord sensor val gain offset coefficient
          (raws ++ fails)).2 sensor raw).1 = lastGood 0 (val :: raws)) := by
  have hrec := registeredThen_record_at flag sensorAdjusts sensorRecord sensor val gain
    offset coefficient raws
  have hstep : (recordStep
      (registeredThen flag sensorAdjusts sensorRecord sensor val gain offset coefficient
        raws).2 sensor raw).1 = lastGood 0 (val :: raws ++ [raw]) := by
    rw [recordStep_of_record _ sensor raw _ hrec]
    rw [show val :: raws ++ [raw] = (val :: raws) ++ [raw] from rfl, lastGood_append]
    simp [lastGood]
  have hnn : ∀ l : List Int, 0 ≤ lastGood 0 l := fun l => lastGood_nonneg 0 l le_rfl
  refine ⟨hrec, hnn _, hstep, hnn _, ?_, ?_⟩
  · have hreach : ¬ (flag = true ∧ (recordStep
        (registeredThen flag sensorAdjusts sensorRecord sensor val gain offset coefficient
          raws).2 sensor raw).1 < 0) := by
      rw [hstep]
      exact fun h => absurd h.2 (not_lt.mpr (hnn _))
    rw [adjustValue_of_reaches _ _ _ _ _ hreach, hstep]
  · intro fails hfails hraw
    have hrec2 := registeredThen_record_at flag sensorAdjusts sensorRecord sensor val gain
      offset coefficient (raws ++ fails)
    rw [recordStep_of_record _ sensor raw _ hrec2]
    simp only [hraw, if_true]
    rw [show val :: (raws ++ fails) = (val :: raws) ++ fails from rfl, lastGood_append,
      lastGood_of_all_neg _ _ hfails]

/-- C14 at a sensor registered with first read 42, then the reads -1, -5: the
record still holds 42, the next failed read -7 reaches calibration as 42, and with
the negative-value build mode on the result is 42. -/
theorem registered_record_nonneg_witness :
    (registeredThen true noAdjusts noRecords ("temp", "1") 42 none none none [-1, -5]).2
        ("temp", "1") = some { record_value := 42 } ∧
      (adjustValue true
        (registeredThen true noAdjusts noRecords ("temp", "1") 42 none none none [-1, -5]).1
        (registeredThen true noAdjusts noRecords ("temp", "1") 42 none none none [-1, -5]).2
        ("temp", "1") (-7)).1 = some 42 := by
  have h := registered_record_nonneg true noAdjusts noRecords ("temp", "1") 42 none none none
    [-1, -5] (-7)
  exact ⟨h.1.trans rfl, h.2.2.2.2.1.trans rfl⟩

/-! ## The dedup set over call sequences: claim C15 -/

theorem add_event_log_subset (g : Finset String)
    (event_log sensor event_key assert_msg : String) (level : Nat)
    (r : Finset String × Option LogCall)
    (hr : add_event_log g event_log sensor event_key assert_msg level = some r) :
    g ⊆ r.1 := by
  by_cases ha : assert_msg = "Assert"
  · subst ha
    rw [add_event_log_assert_eq, Option.some.injEq] at hr
    subst hr
    split
    · exact Finset.Subset.refl g
    · exact Finset.subset_insert _ g
  · by_cases hd : assert_msg = "Deassert"
    · subst hd
      rw [add_event_log_deassert_eq] at hr
      split at hr
      · rw [Option.some.injEq] at hr
        subst hr
        exact Finset.Subset.refl g
      · cases hr
    · rw [add_event_log_other_eq _ _ _ _ _ _ ha hd, Option.some.injEq] at hr
      subst hr
      exact Finset.Subset.refl g

theorem runCalls_subset (calls : List EventCall) (g : Finset String) :
    g ⊆ (runCalls g calls).1 := by
  induction calls generalizing g with
  | nil => exact Finset.Subset.refl g
  | cons c rest ih =>
    simp only [runCalls]
    cases hr : add_event_log g c.event_log c.sensor c.event_key c.assert_msg
        c.error_level with
    | none => exact Finset.Subset.refl g
    | some r =>
      exact Finset.Subset.trans (add_event_log_subset g _ _ _ _ _ r hr) (ih _)

theorem assertsEmitted_cons_none (key : String) (g : Finset String) (c : EventCall)
    (rest : List EventCall)
    (hr : add_event_log g c.event_log c.sensor c.event_key c.assert_msg c.error_level =
      none) :
    assertsEmitted key g (c :: rest) = 0 := by
  simp [assertsEmitted, runCalls, hr]

theorem assertsEmitted_cons_some (key : String) (g : Finset String) (c : EventCall)
    (rest : List EventCall) (r : Finset String × Option LogCall)
    (hr : add_event_log g c.event_log c.sensor c.event_key c.assert_msg c.error_level =
      some r) :
    assertsEmitted key g (c :: rest) =
      (if c.assert_msg = "Assert" ∧ c.event_key ++ c.sensor = key ∧ r.2.isSome = true
        then 1 else 0) + assertsEmitted key r.1 rest := by
  simp only [assertsEmitted, runCalls, hr, List.zip_cons_cons, List.filter_cons]
  by_cases h1 : c.assert_msg = "Assert" ∧ c.event_key ++ c.sensor = key
  · by_cases h2 : r.2.isSome = true
    · simp [h1.1, h1.2, h2, Nat.add_comm]
    · simp [h1.1, h1.2, h2]
  · have h3 : (decide (c.assert_msg = "Assert" ∧ c.event_key ++ c.sensor = key) &&
        r.2.isSome) = false := by simp [h1]
    have h4 : ¬ (c.assert_msg = "Assert" ∧ c.event_key ++ c.sensor = key ∧
        r.2.isSome = true) := fun h => h1 ⟨h.1, h.2.1⟩
    rw [h3, if_neg h4]
    simp

theorem assertsEmitted_of_mem (key : String) (calls : List EventCall) (g : Finset String)
    (hk : key ∈ g) : assertsEmitted key g calls = 0 := by
  induction calls generalizing g with
  | nil => simp [assertsEmitted]
  | cons c rest ih =>
    cases hr : add_event_log g c.event_log c.sensor c.event_key c.assert_msg
        c.error_level with
    | none => exact assertsEmitted_cons_none key g c rest hr
    | some r =>
      rw [assertsEmitted_cons_some key g c rest r hr,
        ih _ (add_event_log_subset g _ _ _ _ _ r hr hk)]
      have : ¬ (c.assert_msg = "Assert" ∧ c.event_key ++ c.sensor = key ∧
          r.2.isSome = true) := by
        rintro ⟨ha, hkey, hsome⟩
        rw [ha, add_event_log_assert_eq, hkey, if_pos hk, Option.some.injEq] at hr
        subst hr
        simp at hsome
      simp [this]

theorem assertsEmitted_le_one (key : String) (calls : List EventCall) (g : Finset String) :
    assertsEmitted key g calls ≤ 1 := by
  induction calls generalizing g with
  | nil => simp [assertsEmitted]
  | cons c rest ih =>
    cases hr : add_event_log g c.event_log c.sensor c.event_key c.assert_msg
        c.error_level with
    | none =>
      rw [assertsEmitted_cons_none key g c rest hr]
      exact Nat.zero_le 1
    | some r =>
      rw [assertsEmitted_cons_some key g c rest r hr]
      by_cases h : c.assert_msg = "Assert" ∧ c.event_key ++ c.sensor = key ∧
          r.2.isSome = true
      · have hmem : key ∈ r.1 := by
          obtain ⟨ha, hkey, _⟩ := h
          rw [ha, add_event_log_assert_eq, hkey, Option.some.injEq] at hr
          subst hr
          split
          · assumption
          · exact Finset.mem_insert_self _ _
        rw [if_pos h, assertsEmitted_of_mem key rest _ hmem]
      · rw [if_neg h, Nat.zero_add]
        exact ih _

/-- C15.  No `add_event_log` call removes a key: the set before a call that
returns is contained in the set after it (the one call that reaches the erase
reaches it with the `end()` iterator and does not return), and so is the initial
set in the set reached by any sequence of calls.  Hence over any call sequence at
most one `"Assert"` call per key makes a bus call, and none does for a key
already in the initial set.  The call that does not return is the `"Deassert"`
call whose key is absent, and no other. -/
theorem dedup_set_only_grows (g : Finset String) (calls : List EventCall) (key : String) :
    (∀ (event_log sensor event_key assert_msg : String) (level : Nat)
        (r : Finset String × Option LogCall),
      add_event_log g event_log sensor event_key assert_msg level = some r → g ⊆ r.1) ∧
    g ⊆ (runCalls g calls).1 ∧
    assertsEmitted key g calls ≤ 1 ∧
    (key ∈ g → assertsEmitted key g calls = 0) ∧
    (∀ (event_log sensor event_key assert_msg : String) (level : Nat),
      add_event_log g event_log sensor event_key assert_msg level = none ↔
        assert_msg = "Deassert" ∧ event_key ++ sensor ∉ g) :=
  ⟨add_event_log_subset g, runCalls_subset calls g, assertsEmitted_le_one key calls g,
    assertsEmitted_of_mem key calls g, add_event_log_eq_none_iff g⟩

/-- C15 on the polling loop: for the classifications `[AboveHigh, Normal, AboveHigh]`
of sensor `("temp", "1")` from the empty set, the `WARN` case makes the `Assert`
bus call on the first tick only; the second abnormal phase makes none. -/
theorem dedup_set_only_grows_witness :
    (runTicks (pollWarning 3) ("temp", "1") "cpu" ∅
        [(95, AboveHigh), (50, Normal), (96, AboveHigh)]).map Prod.snd =
      some [some ⟨"Sensor Threshold WarningHigh:cpu, value:95", 3⟩, none, none] ∧
    assertsEmitted "temp1ThresholdWarning" ∅
        [⟨"a", "ThresholdWarning", "temp1", "Assert", 3⟩,
          ⟨"", "ThresholdWarning", "temp1", "Deassert", 3⟩,
          ⟨"b", "ThresholdWarning", "temp1", "Assert", 3⟩] = 1 := by
  have h := (dedup_set_only_grows ∅
    [⟨"a", "ThresholdWarning", "temp1", "Assert", 3⟩,
      ⟨"", "ThresholdWarning", "temp1", "Deassert", 3⟩,
      ⟨"b", "ThresholdWarning", "temp1", "Assert", 3⟩] "temp1ThresholdWarning").2.2.1
  refine ⟨rfl, le_antisymm h ?_⟩
  decide

/-! ## Label classification in OCC mode: claim C16 -/

theorem bytes_dimm : bytes "dimm" = [100, 105, 109, 109] := by decide

theorem bytes_core : bytes "core" = [99, 111, 114, 101] := by decide

theorem compareEq_zero (label s : String) (len : Nat) :
    compareEq label 0 len s = Except.ok (decide ((bytes label).take len = bytes s)) := by
  simp only [compareEq, Nat.not_lt_zero, gt_iff_lt, if_false, List.drop_zero,
    Bool.beq_eq_decide_eq]

theorem compareEq_three_of_short (label s : String) (len : Nat)
    (h : (bytes label).length < 3) :
    compareEq label 3 len s = Except.error Abort.out_of_range := by
  simp [compareEq, h]

theorem compareEq_three_of_long (label s : String) (len : Nat)
    (h : 3 ≤ (bytes label).length) :
    compareEq label 3 len s =
      Except.ok (decide (((bytes label).drop 3).take len = bytes s)) := by
  have h' : ¬ (bytes label).length < 3 := not_lt.mpr h
  simp only [compareEq, gt_iff_lt, h', if_false, Bool.beq_eq_decide_eq]

theorem not_startsWithDimm_of_short (label : String) (h : (bytes label).length < 3) :
    ¬ startsWithDimm label := by
  intro hd
  have hlen := congrArg List.length hd
  rw [bytes_dimm] at hlen
  simp at hlen
  omega

theorem not_dimm_and_core (label : String) : ¬ (startsWithDimm label ∧ hasCoreAt3 label) := by
  rintro ⟨hd, hc⟩
  unfold startsWithDimm at hd
  unfold hasCoreAt3 at hc
  rw [bytes_dimm] at hd
  rw [bytes_core] at hc
  generalize bytes label = b at hd hc
  match b, hd, hc with
  | [], hd, _ => simp at hd
  | [_], hd, _ => simp at hd
  | [_, _], hd, _ => simp at hd
  | [_, _, _], hd, _ => simp at hd
  | _ :: _ :: _ :: x :: rest, hd, hc =>
    simp at hd hc
    have h1 := hd.2.2.2
    have h2 := hc.1
    rw [h1] at h2
    exact absurd h2 (by decide)

theorem occRole_of_short (label : String) (h : (bytes label).length < 3) :
    occRole label = Except.error Abort.out_of_range := by
  unfold occRole
  rw [compareEq_zero, compareEq_three_of_short label "core" 4 h]
  have := not_startsWithDimm_of_short label h
  unfold startsWithDimm at this
  simp [this]

theorem occRole_of_long (label : String) (h : 3 ≤ (bytes label).length) :
    (startsWithDimm label → occRole label = Except.ok OccRole.dimm) ∧
    (¬ startsWithDimm label → hasCoreAt3 label → occRole label = Except.ok OccRole.core) ∧
    (¬ startsWithDimm label → ¬ hasCoreAt3 label →
      occRole label = Except.ok OccRole.neither) := by
  unfold occRole
  rw [compareEq_zero, compareEq_three_of_long label "core" 4 h]
  unfold startsWithDimm hasCoreAt3
  refine ⟨fun hd => ?_, fun hd hc => ?_, fun hd hc => ?_⟩
  · simp [hd]
  · simp [hd, hc]
  · simp [hd, hc]

theorem forSensors_append (env : LoopEnv) (read : SensorKey → Except Nat Int)
    (xs ys : List (SensorKey × SensorEntry)) (v : LoopState) :
    forSensors env read (xs ++ ys) v =
      match forSensors env read xs v with
      | Except.error e => Except.error e
      | Except.ok v' => forSensors env read ys v' := by
  induction xs generalizing v with
  | nil => rfl
  | cons x xs ih =>
    simp only [List.cons_append, forSensors]
    cases sensorBody env read x v with
    | error e => rfl
    | ok v' => exact ih v'

theorem sensorBody_of_short_label (env : LoopEnv) (read : SensorKey → Except Nat Int)
    (key : SensorKey) (entry : SensorEntry) (v : LoopState) (raw value : Int)
    (hocc : env.isOCC = true) (hshort : (bytes entry.label).length < 3)
    (hread : read key = Except.ok raw)
    (hval : (adjustValue env.NEGATIVE_ERRNO_ON_FAIL env.sensorAdjusts v.sensorRecord key
      raw).1 = some value) :
    sensorBody env read (key, entry) v =
      Except.error (Abort.out_of_range,
        { v with sensorRecord := (adjustValue env.NEGATIVE_ERRNO_ON_FAIL env.sensorAdjusts
            v.sensorRecord key raw).2 }) := by
  simp only [sensorBody, hread, hval, occStep, hocc, if_true, occRole_of_short _ hshort]

/-- C16.  The label tests of the OCC aggregate.  For a label of at least 3 bytes
the classification has a result, which is dimm exactly for a label beginning with
`"dimm"`, core exactly for a label with `"core"` at offset 3, neither otherwise,
and no label is both.  For a label of fewer than 3 bytes the test at offset 3
throws `std::out_of_range`: when the tick reaches such a sensor in OCC mode with a
successful read, the tick ends by that exception, not by the read-failure policy
(nothing is added to `destroy`, no `exit`, the working set is as it was), and no
value property is written for the sensor. -/
theorem occ_label_classification (label : String) :
    (3 ≤ (bytes label).length →
      ¬ (startsWithDimm label ∧ hasCoreAt3 label) ∧
      (occRole label = Except.ok OccRole.dimm ↔ startsWithDimm label) ∧
      (occRole label = Except.ok OccRole.core ↔ hasCoreAt3 label) ∧
      (occRole label = Except.ok OccRole.neither ↔
        ¬ startsWithDimm label ∧ ¬ hasCoreAt3 label)) ∧
    ((bytes label).length < 3 →
      occRole label = Except.error Abort.out_of_range ∧
      ∀ (env : LoopEnv) (read : SensorKey → Except Nat Int) (s v : LoopState)
        (pre post : List (SensorKey × SensorEntry)) (key : SensorKey)
        (hasWarn hasCrit : Bool) (raw value : Int),
        env.isOCC = true →
        s.state = pre ++ (key, ⟨label, hasWarn, hasCrit⟩) :: post →
        forSensors env read pre (tickStart s) = Except.ok v →
        read key = Except.ok raw →
        (adjustValue env.NEGATIVE_ERRNO_ON_FAIL env.sensorAdjusts v.sensorRecord key
          raw).1 = some value →
        abortOf (tick env read s) = some Abort.out_of_range ∧
        (reached (tick env read s)).values = v.values ∧
        (reached (tick env read s)).destroy = v.destroy ∧
        (reached (tick env read s)).state = v.state) := by
  refine ⟨fun hlong => ?_, fun hshort => ⟨occRole_of_short label hshort, ?_⟩⟩
  · obtain ⟨h1, h2, h3⟩ := occRole_of_long label hlong
    have hnot := not_dimm_and_core label
    refine ⟨hnot, ?_, ?_, ?_⟩
    · constructor
      · intro h
        by_contra hd
        by_cases hc : hasCoreAt3 label
        · rw [h2 hd hc] at h
          cases h
        · rw [h3 hd hc] at h
          cases h
      · exact h1
    · constructor
      · intro h
        by_contra hc
        by_cases hd : startsWithDimm label
        · rw [h1 hd] at h
          cases h
        · rw [h3 hd hc] at h
          cases h
      · intro hc
        exact h2 (fun hd => hnot ⟨hd, hc⟩) hc
    · constructor
      · intro h
        constructor
        · intro hd
          rw [h1 hd] at h
          cases h
        · intro hc
          by_cases hd : startsWithDimm label
          · exact hnot ⟨hd, hc⟩
          · rw [h2 hd hc] at h
            cases h
      · rintro ⟨hd, hc⟩
        exact h3 hd hc
  · intro env read s v pre post key hasWarn hasCrit raw value hocc hstate hpre hread hval
    have hbody := sensorBody_of_short_label env read key ⟨label, hasWarn, hasCrit⟩ v raw
      value hocc hshort hread hval
    have htick : tick env read s = Except.error (Abort.out_of_range,
        { v with sensorRecord := (adjustValue env.NEGATIVE_ERRNO_ON_FAIL env.sensorAdjusts
            v.sensorRecord key raw).2 }) := by
      simp only [tick, hstate, forSensors_append, hpre, forSensors, hbody]
    rw [htick]
    exact ⟨rfl, rfl, rfl, rfl⟩

/-- C16 at the labels `"dimm0"`, `"p0-core1"`, `"fan0"` and `"ab"`: the first three
are classified; a tick in OCC mode over one sensor labelled `"ab"` that reads 30
ends by `std::out_of_range`, with no value written and nothing in `destroy`. -/
theorem occ_label_classification_witness :
    occRole "dimm0" = Except.ok OccRole.dimm ∧
      occRole "p0-core1" = Except.ok OccRole.core ∧
      occRole "fan0" = Except.ok OccRole.neither ∧
      abortOf (tick (occEnv noAdjusts) (readsOf [(("temp", "9"), 30)])
        (occState [(("temp", "9"), ⟨"ab", true, true⟩)])) = some Abort.out_of_range ∧
      (reached (tick (occEnv noAdjusts) (readsOf [(("temp", "9"), 30)])
        (occState [(("temp", "9"), ⟨"ab", true, true⟩)]))).values ("temp", "9") = none ∧
      (reached (tick (occEnv noAdjusts) (readsOf [(("temp", "9"), 30)])
        (occState [(("temp", "9"), ⟨"ab", true, true⟩)]))).destroy = [] := by
  have h := ((occ_label_classification "ab").2 (by decide)).2 (occEnv noAdjusts)
    (readsOf [(("temp", "9"), 30)]) (occState [(("temp", "9"), ⟨"ab", true, true⟩)])
    (tickStart (occState [(("temp", "9"), ⟨"ab", true, true⟩)])) [] [] ("temp", "9")
    true true 30 30 rfl rfl rfl rfl rfl
  exact ⟨rfl, rfl, rfl, h.1, (congrFun h.2.1 ("temp", "9")).trans rfl, h.2.2.1.trans rfl⟩

/-! ## The working set after a tick: claim C12 -/

theorem recordStep_snd_other (sensorRecord : RecordMap) (sensor other : SensorKey)
    (raw : Int) (hne : other ≠ sensor) :
    (recordStep sensorRecord sensor raw).2 other = sensorRecord other := by
  unfold recordStep
  cases sensorRecord sensor with
  | none => rfl
  | some rc => simp [Function.update, hne]

theorem adjustValue_fst_congr (flag : Bool) (sensorAdjusts : AdjustMap)
    (sensorRecord sensorRecord' : RecordMap) (sensor : SensorKey) (raw : Int)
    (h : sensorRecord sensor = sensorRecord' sensor) :
    (adjustValue flag sensorAdjusts sensorRecord sensor raw).1 =
      (adjustValue flag sensorAdjusts sensorRecord' sensor raw).1 := by
  have hs : (recordStep sensorRecord sensor raw).1 =
      (recordStep sensorRecord' sensor raw).1 := by
    unfold recordStep
    rw [h]
    cases sensorRecord' sensor <;> rfl
  unfold adjustValue
  simp only [hs]
  split <;> rfl

theorem occStep_frame (isOCC : Bool) (label : String) (value : Int) (v v' : LoopState)
    (h : occStep isOCC label value v = Except.ok v') :
    v'.state = v.state ∧ v'.destroy = v.destroy ∧ v'.sensorRecord = v.sensorRecord ∧
      v'.values = v.values ∧ v'.g_record_event_list = v.g_record_event_list ∧
      v'.occ_max_dimm_file = v.occ_max_dimm_file ∧
      v'.occ_max_core_file = v.occ_max_core_file := by
  unfold occStep at h
  by_cases hocc : isOCC = true
  · rw [if_pos hocc] at h
    cases hr : occRole label with
    | error e => rw [hr] at h; cases h
    | ok role =>
      rw [hr] at h
      cases role with
      | dimm =>
        simp only [Except.ok.injEq] at h
        subst h
        split <;> exact ⟨rfl, rfl, rfl, rfl, rfl, rfl, rfl⟩
      | core =>
        simp only [Except.ok.injEq] at h
        subst h
        split <;> exact ⟨rfl, rfl, rfl, rfl, rfl, rfl, rfl⟩
      | neither =>
        simp only [Except.ok.injEq] at h
        subst h
        exact ⟨rfl, rfl, rfl, rfl, rfl, rfl, rfl⟩
  · rw [if_neg hocc] at h
    simp only [Except.ok.injEq] at h
    subst h
    exact ⟨rfl, rfl, rfl, rfl, rfl, rfl, rfl⟩

theorem thresholdSwitch_subset (highMsg lowMsg category : String) (level : Nat)
    (g : Finset String) (key : SensorKey) (sensor_name : String) (value cls : Int)
    (r : Finset String × Option LogCall)
    (hr : thresholdSwitch highMsg lowMsg category level g key sensor_name value cls =
      some r) : g ⊆ r.1 := by
  obtain ⟨event_log, assert_msg, hcall⟩ :=
    thresholdSwitch_is_call highMsg lowMsg category level key sensor_name value cls
  rw [hcall] at hr
  exact add_event_log_subset g _ _ _ _ _ r hr

theorem thresholdSwitch_defined (highMsg lowMsg category : String) (level : Nat)
    (g : Finset String) (key : SensorKey) (sensor_name : String) (value cls : Int)
    (h : cls = 2 ∨ cls = 1 ∨ key.1 ++ key.2 ++ category ∈ g) :
    ∃ r, thresholdSwitch highMsg lowMsg category level g key sensor_name value cls =
      some r := by
  unfold thresholdSwitch
  by_cases h2 : cls = 2
  · rw [if_pos h2, add_event_log_assert_eq]
    exact ⟨_, rfl⟩
  · rw [if_neg h2]
    by_cases h1 : cls = 1
    · rw [if_pos h1, add_event_log_assert_eq]
      exact ⟨_, rfl⟩
    · rw [if_neg h1, add_event_log_deassert_eq]
      rcases h with h | h | h
      · exact absurd h h2
      · exact absurd h h1
      · rw [if_pos h]
        exact ⟨_, rfl⟩

theorem thresholdCase_frame (present : Bool)
    (poll : Finset String → SensorKey → String → Int → Int →
      Option (Finset String × Option LogCall))
    (hpoll : ∀ g key name value cls r, poll g key name value cls = some r → g ⊆ r.1)
    (cls : Int) (i : SensorKey × SensorEntry) (value : Int) (v v' : LoopState)
    (h : thresholdCase present poll cls i value v = Except.ok v') :
    v'.state = v.state ∧ v'.destroy = v.destroy ∧ v'.sensorRecord = v.sensorRecord ∧
      v'.values = v.values ∧ v.g_record_event_list ⊆ v'.g_record_event_list ∧
      v'.occ_max_dimm_temp = v.occ_max_dimm_temp ∧
      v'.occ_max_core_temp = v.occ_max_core_temp ∧
      v'.occ_max_dimm_file = v.occ_max_dimm_file ∧
      v'.occ_max_core_file = v.occ_max_core_file := by
  unfold thresholdCase at h
  by_cases hp : present = true
  · rw [if_pos hp] at h
    cases hr : poll v.g_record_event_list i.1 i.2.label value cls with
    | none => rw [hr] at h; cases h
    | some r =>
      rw [hr] at h
      simp only [Except.ok.injEq] at h
      subst h
      exact ⟨rfl, rfl, rfl, rfl, hpoll _ _ _ _ _ r hr, rfl, rfl, rfl, rfl⟩
  · rw [if_neg hp] at h
    simp only [Except.ok.injEq] at h
    subst h
    exact ⟨rfl, rfl, rfl, rfl, Finset.Subset.refl _, rfl, rfl, rfl, rfl⟩

theorem thresholdCase_defined (present : Bool) (highMsg lowMsg category : String)
    (level : Nat) (cls : Int) (i : SensorKey × SensorEntry) (value : Int) (v : LoopState)
    (g0 : Finset String) (hg : g0 ⊆ v.g_record_event_list)
    (h : caseDefined present cls (i.1.1 ++ i.1.2 ++ category) g0) :
    ∃ v', thresholdCase present (thresholdSwitch highMsg lowMsg category level) cls i value
      v = Except.ok v' := by
  unfold thresholdCase
  by_cases hp : present = true
  · rw [if_pos hp]
    have hc : cls = 2 ∨ cls = 1 ∨ i.1.1 ++ i.1.2 ++ category ∈ v.g_record_event_list := by
      rcases h hp with h | h | h
      · exact Or.inl h
      · exact Or.inr (Or.inl h)
      · exact Or.inr (Or.inr (hg h))
    obtain ⟨r, hr⟩ := thresholdSwitch_defined highMsg lowMsg category level
      v.g_record_event_list i.1 i.2.label value cls hc
    rw [hr]
    exact ⟨_, rfl⟩
  · rw [if_neg hp]
    exact ⟨_, rfl⟩

theorem ifaceLoop_frame (env : LoopEnv) (i : SensorKey × SensorEntry) (value : Int)
    (v v' : LoopState) (h : ifaceLoop env i value v = Except.ok v') :
    v'.state = v.state ∧ v'.destroy = v.destroy ∧ v'.sensorRecord = v.sensorRecord ∧
      v'.values = Function.update v.values i.1 (some value) ∧
      v.g_record_event_list ⊆ v'.g_record_event_list ∧
      v'.occ_max_dimm_temp = v.occ_max_dimm_temp ∧
      v'.occ_max_core_temp = v.occ_max_core_temp ∧
      v'.occ_max_dimm_file = v.occ_max_dimm_file ∧
      v'.occ_max_core_file = v.occ_max_core_file := by
  unfold ifaceLoop at h
  simp only at h
  cases hw : thresholdCase i.2.hasWarn (pollWarning env.LOG_LEVEL_WARNING)
      (env.checkWarning i.1 value) i value
      { v with values := Function.update v.values i.1 (some value) } with
  | error e => rw [hw] at h; cases h
  | ok w =>
    rw [hw] at h
    simp only at h
    obtain ⟨a1, a2, a3, a4, a5, a6, a7, a8, a9⟩ := thresholdCase_frame _ _
      (fun g key name value cls r hr => thresholdSwitch_subset _ _ _ _ g key name value cls r hr)
      _ _ _ _ _ hw
    obtain ⟨b1, b2, b3, b4, b5, b6, b7, b8, b9⟩ := thresholdCase_frame _ _
      (fun g key name value cls r hr => thresholdSwitch_subset _ _ _ _ g key name value cls r hr)
      _ _ _ _ _ h
    exact ⟨b1.trans a1, b2.trans a2, b3.trans a3, b4.trans a4,
      Finset.Subset.trans a5 b5, b6.trans a6, b7.trans a7, b8.trans a8, b9.trans a9⟩

theorem ifaceLoop_defined (env : LoopEnv) (i : SensorKey × SensorEntry) (value : Int)
    (v : LoopState) (g0 : Finset String) (hg : g0 ⊆ v.g_record_event_list)
    (hwarn : caseDefined i.2.hasWarn (env.checkWarning i.1 value)
      (i.1.1 ++ i.1.2 ++ "ThresholdWarning") g0)
    (hcrit : caseDefined i.2.hasCrit (env.checkCritical i.1 value)
      (i.1.1 ++ i.1.2 ++ "ThresholdCritical") g0) :
    ∃ v', ifaceLoop env i value v = Except.ok v' := by
  unfold ifaceLoop
  simp only
  obtain ⟨w, hw⟩ := thresholdCase_defined i.2.hasWarn "Sensor Threshold WarningHigh:"
    "Sensor Threshold WarningLow:" "ThresholdWarning" env.LOG_LEVEL_WARNING
    (env.checkWarning i.1 value) i value
    { v with values := Function.update v.values i.1 (some value) } g0 hg hwarn
  have hw' : thresholdCase i.2.hasWarn (pollWarning env.LOG_LEVEL_WARNING)
      (env.checkWarning i.1 value) i value
      { v with values := Function.update v.values i.1 (some value) } = Except.ok w := hw
  rw [hw']
  simp only
  obtain ⟨_, _, _, _, a5, _⟩ := thresholdCase_frame _ _
    (fun g key name value cls r hr => thresholdSwitch_subset _ _ _ _ g key name value cls r hr)
    _ _ _ _ _ hw
  exact thresholdCase_defined i.2.hasCrit "Sensor Threshold CriticalHigh:"
    "Sensor Threshold CriticalLow:" "ThresholdCritical" env.LOG_LEVEL_CRITICAL
    (env.checkCritical i.1 value) i value w g0 (Finset.Subset.trans hg a5) hcrit

/-- What the loop body of one sensor leaves as it was, when it runs to its end: the
working set, the records of the other sensors, the members of the dedup set and
the aggregate files; `destroy` gains the sensor exactly when its read failed
(under `REMOVE_ON_FAIL`; otherwise the body does not run to its end then). -/
theorem sensorBody_frame (env : LoopEnv) (read : SensorKey → Except Nat Int)
    (i : SensorKey × SensorEntry) (v v' : LoopState)
    (h : sensorBody env read i v = Except.ok v') :
    v'.state = v.state ∧
      v'.destroy = v.destroy ++ (if readOk read i.1 = true then [] else [i.1]) ∧
      (∀ k, k ≠ i.1 → v'.sensorRecord k = v.sensorRecord k) ∧
      v.g_record_event_list ⊆ v'.g_record_event_list ∧
      v'.occ_max_dimm_file = v.occ_max_dimm_file ∧
      v'.occ_max_core_file = v.occ_max_core_file := by
  unfold sensorBody at h
  cases hr : read i.1 with
  | error errno =>
    rw [hr] at h
    simp only at h
    by_cases hpol : env.REMOVE_ON_FAIL = true
    · rw [if_pos hpol] at h
      simp only [Except.ok.injEq] at h
      subst h
      simp [readOk, hr]
    · rw [if_neg hpol] at h
      cases h
  | ok raw =>
    rw [hr] at h
    simp only at h
    cases hv : (adjustValue env.NEGATIVE_ERRNO_ON_FAIL env.sensorAdjusts v.sensorRecord i.1
        raw).1 with
    | none => rw [hv] at h; cases h
    | some value =>
      rw [hv] at h
      simp only at h
      cases ho : occStep env.isOCC i.2.label value
          { v with sensorRecord := (adjustValue env.NEGATIVE_ERRNO_ON_FAIL env.sensorAdjusts
            v.sensorRecord i.1 raw).2 } with
      | error e => rw [ho] at h; cases h
      | ok w =>
        rw [ho] at h
        simp only at h
        obtain ⟨a1, a2, a3, _, a5, a6, a7⟩ := occStep_frame _ _ _ _ _ ho
        obtain ⟨b1, b2, b3, _, b5, _, _, b8, b9⟩ := ifaceLoop_frame env i value w v' h
        refine ⟨b1.trans a1, ?_, ?_, ?_, b8.trans a6, b9.trans a7⟩
        · rw [b2, a2]
          simp [readOk, hr]
        · intro k hk
          rw [b3, a3]
          simp only [adjustValue_snd]
          exact recordStep_snd_other _ _ _ _ hk
        · have a5' : w.g_record_event_list = v.g_record_event_list := a5
          rw [← a5']
          exact b5

theorem forSensors_working_set (env : LoopEnv) (read : SensorKey → Except Nat Int)
    (l : List (SensorKey × SensorEntry)) (v v' : LoopState)
    (h : forSensors env read l v = Except.ok v') :
    v'.state = v.state ∧
      v'.destroy = v.destroy ++
        (l.filter (fun e => !readOk read e.1)).map (fun e => e.1) := by
  induction l generalizing v with
  | nil =>
    simp only [forSensors, Except.ok.injEq] at h
    subst h
    simp
  | cons i rest ih =>
    simp only [forSensors] at h
    cases hb : sensorBody env read i v with
    | error e => rw [hb] at h; cases h
    | ok w =>
      rw [hb] at h
      obtain ⟨h1, h2, _⟩ := sensorBody_frame env read i v w hb
      obtain ⟨h3, h4⟩ := ih w h
      refine ⟨h3.trans h1, ?_⟩
      rw [h4, h2]
      by_cases hr : readOk read i.1 = true <;> simp [hr, List.filter_cons]

theorem eraseKeys_eq_filter (destroy : List SensorKey) (state : List (SensorKey × SensorEntry)) :
    eraseKeys destroy state = state.filter (fun e => decide (e.1 ∉ destroy)) := by
  unfold eraseKeys
  induction destroy generalizing state with
  | nil => simp
  | cons k ks ih =>
    simp only [List.foldl_cons]
    rw [ih, List.filter_filter]
    apply List.filter_congr
    intro e _
    simp [List.mem_cons, not_or, Bool.and_comm]

theorem filter_failed_keys (read : SensorKey → Except Nat Int)
    (state : List (SensorKey × SensorEntry)) :
    state.filter (fun e => decide (e.1 ∉
        (state.filter (fun e => !readOk read e.1)).map (fun e => e.1))) =
      state.filter (fun e => readOk read e.1) := by
  apply List.filter_congr
  intro e he
  by_cases hr : readOk read e.1 = true
  · simp only [hr, decide_eq_true_eq, List.mem_map, List.mem_filter, not_exists, not_and]
    rintro x ⟨_, hx⟩ hxe
    rw [hxe, hr] at hx
    simp at hx
  · have hf : readOk read e.1 = false := by simpa using hr
    simp only [hf, decide_eq_false_iff_not, not_not, List.mem_map, List.mem_filter]
    exact ⟨e, ⟨he, by simp [hf]⟩, rfl⟩

theorem occStep_defined (isOCC : Bool) (label : String) (value : Int) (v : LoopState)
    (h : isOCC = true → 3 ≤ (bytes label).length) :
    ∃ v', occStep isOCC label value v = Except.ok v' := by
  unfold occStep
  by_cases hocc : isOCC = true
  · rw [if_pos hocc]
    obtain ⟨h1, h2, h3⟩ := occRole_of_long label (h hocc)
    by_cases hd : startsWithDimm label
    · rw [h1 hd]
      exact ⟨_, rfl⟩
    · by_cases hc : hasCoreAt3 label
      · rw [h2 hd hc]
        exact ⟨_, rfl⟩
      · rw [h3 hd hc]
        exact ⟨_, rfl⟩
  · rw [if_neg hocc]
    exact ⟨_, rfl⟩

/-- The loop body of a sensor runs to its end when `bodyCompletes` holds of it for a
record map that agrees with the current one at this sensor and a dedup set
contained in the current one. -/
theorem sensorBody_defined (env : LoopEnv) (read : SensorKey → Except Nat Int)
    (i : SensorKey × SensorEntry) (v : LoopState) (hpol : env.REMOVE_ON_FAIL = true)
    (sensorRecord : RecordMap) (g : Finset String)
    (hrec : v.sensorRecord i.1 = sensorRecord i.1) (hg : g ⊆ v.g_record_event_list)
    (h : bodyCompletes env read sensorRecord g i) :
    ∃ v', sensorBody env read i v = Except.ok v' := by
  unfold sensorBody
  cases hr : read i.1 with
  | error errno =>
    simp only [if_pos hpol]
    exact ⟨_, rfl⟩
  | ok raw =>
    obtain ⟨value, hv, hlabel, hwarn, hcrit⟩ := h raw hr
    rw [← adjustValue_fst_congr env.NEGATIVE_ERRNO_ON_FAIL env.sensorAdjusts v.sensorRecord
      sensorRecord i.1 raw hrec] at hv
    simp only [hv]
    obtain ⟨w, hw⟩ := occStep_defined env.isOCC i.2.label value
      { v with sensorRecord := (adjustValue env.NEGATIVE_ERRNO_ON_FAIL env.sensorAdjusts
        v.sensorRecord i.1 raw).2 } hlabel
    rw [hw]
    simp only
    obtain ⟨_, _, _, _, a5, _⟩ := occStep_frame _ _ _ _ _ hw
    have a5' : w.g_record_event_list = v.g_record_event_list := a5
    exact ifaceLoop_defined env i value w g (a5' ▸ hg) hwarn hcrit

theorem forSensors_defined (env : LoopEnv) (read : SensorKey → Except Nat Int)
    (l : List (SensorKey × SensorEntry)) (v : LoopState) (hpol : env.REMOVE_ON_FAIL = true)
    (sensorRecord : RecordMap) (g : Finset String)
    (hnodup : (l.map (fun e => e.1)).Nodup)
    (hrec : ∀ e ∈ l, v.sensorRecord e.1 = sensorRecord e.1)
    (hg : g ⊆ v.g_record_event_list)
    (h : ∀ e ∈ l, bodyCompletes env read sensorRecord g e) :
    ∃ v', forSensors env read l v = Except.ok v' := by
  induction l generalizing v with
  | nil => exact ⟨v, rfl⟩
  | cons i rest ih =>
    obtain ⟨w, hw⟩ := sensorBody_defined env read i v hpol sensorRecord g
      (hrec i (List.mem_cons_self _ _)) hg (h i (List.mem_cons_self _ _))
    simp only [forSensors, hw]
    obtain ⟨_, _, b3, b4, _⟩ := sensorBody_frame env read i v w hw
    rw [List.map_cons, List.nodup_cons] at hnodup
    refine ih w hnodup.2 ?_ (Finset.Subset.trans hg b4)
      (fun e he => h e (List.mem_cons_of_mem _ he))
    intro e he
    have hne : e.1 ≠ i.1 := by
      intro heq
      exact hnodup.1 (heq ▸ List.mem_map_of_mem (fun e => e.1) he)
    rw [b3 e.1 hne]
    exact hrec e (List.mem_cons_of_mem _ he)

/-- C12.  Under `REMOVE_ON_FAIL`, a tick that runs to its end leaves as working set
exactly the previous working set without the sensors whose read failed in that
tick: the entries of the sensors read successfully, unchanged and in order.  The
tick does run to its end when the keys of the working set are distinct (they are
the keys of a `std::map`) and `bodyCompletes` holds of every sensor: for the value
it reads, the conversions of the adjustment are defined, in OCC mode the label
has at least 3 bytes, and no threshold case reaches the erase of the end
iterator. -/
theorem working_set_after_tick (env : LoopEnv) (read : SensorKey → Except Nat Int)
    (s : LoopState) (hpol : env.REMOVE_ON_FAIL = true) :
    (∀ s', tick env read s = Except.ok s' →
      s'.state = s.state.filter (fun e => readOk read e.1)) ∧
    ((s.state.map (fun e => e.1)).Nodup →
      (∀ e ∈ s.state, bodyCompletes env read s.sensorRecord s.g_record_event_list e) →
      ∃ s', tick env read s = Except.ok s') := by
  constructor
  · intro s' h
    unfold tick at h
    cases hf : forSensors env read s.state (tickStart s) with
    | error e => rw [hf] at h; cases h
    | ok w =>
      rw [hf] at h
      simp only [Except.ok.injEq] at h
      obtain ⟨h1, h2⟩ := forSensors_working_set env read s.state (tickStart s) w hf
      have hw1 : (writeOccFiles env w).state = w.state := by
        unfold writeOccFiles
        split <;> rfl
      have hw2 : (writeOccFiles env w).destroy = w.destroy := by
        unfold writeOccFiles
        split <;> rfl
      subst h
      simp only [removeFailed, if_pos hpol, hw1, hw2, h1, h2, tickStart, List.nil_append]
      rw [eraseKeys_eq_filter, filter_failed_keys]
  · intro hnodup h
    obtain ⟨w, hw⟩ := forSensors_defined env read s.state (tickStart s) hpol s.sensorRecord
      s.g_record_event_list hnodup (fun _ _ => rfl) (Finset.Subset.refl _) h
    exact ⟨removeFailed env (writeOccFiles env w), by simp only [tick, hw]⟩

/-- C12 at three sensors of which the second fails, the first reads 95 (above both
thresholds) and the third reads 30 with its warning key in the dedup set: the tick
runs to its end and the working set is the first and the third sensor. -/
theorem working_set_after_tick_witness :
    abortOf (tick (occEnv noAdjusts) (readsOf [(("temp", "1"), 95), (("fan", "1"), 30)])
        (occState threeSensors)) = none ∧
      (reached (tick (occEnv noAdjusts) (readsOf [(("temp", "1"), 95), (("fan", "1"), 30)])
        (occState threeSensors))).state =
        [ (("temp", "1"), { label := "dimm0", hasWarn := true, hasCrit := true }),
          (("fan", "1"), { label := "fan0", hasWarn := true, hasCrit := false }) ] := by
  have h := working_set_after_tick (occEnv noAdjusts)
    (readsOf [(("temp", "1"), 95), (("fan", "1"), 30)]) (occState threeSensors) rfl
  obtain ⟨s', hs'⟩ := h.2 (by decide) (by
    intro e he raw hraw
    simp only [occState, threeSensors, List.mem_cons, List.mem_singleton,
      List.not_mem_nil, or_false] at he
    rcases he with rfl | rfl | rfl
    · have hraw' : raw = 95 := by
        have : readsOf [(("temp", "1"), 95), (("fan", "1"), 30)] ("temp", "1") =
          Except.ok 95 := rfl
        rw [this] at hraw
        exact (Except.ok.inj hraw).symm
      subst hraw'
      exact ⟨95, rfl, fun _ => by decide, fun _ => Or.inl rfl, fun _ => Or.inl rfl⟩
    · have : readsOf [(("temp", "1"), 95), (("fan", "1"), 30)] ("temp", "2") =
        Except.error 5 := rfl
      rw [this] at hraw
      cases hraw
    · have hraw' : raw = 30 := by
        have : readsOf [(("temp", "1"), 95), (("fan", "1"), 30)] ("fan", "1") =
          Except.ok 30 := rfl
        rw [this] at hraw
        exact (Except.ok.inj hraw).symm
      subst hraw'
      exact ⟨30, rfl, fun _ => by decide, fun _ => Or.inr (Or.inr (by decide)),
        fun h => by cases h⟩)
  rw [hs']
  exact ⟨rfl, (h.1 s' hs').trans (by decide)⟩

/-! ## The OCC aggregates of a tick: claim C13 -/

theorem ite_lt_eq_max (a b : Int) : (if a < b then b else a) = max a b := by
  rcases lt_trichotomy a b with h | h | h
  · simp [h, max_eq_right (le_of_lt h)]
  · simp [h]
  · simp [not_lt.mpr (le_of_lt h), max_eq_left (le_of_lt h)]

theorem foldl_max_of_le (l : List Int) (a : Int) (h : ∀ x ∈ l, x ≤ a) :
    l.foldl max a = a := by
  induction l with
  | nil => rfl
  | cons x rest ih =>
    simp only [List.foldl_cons, max_eq_left (h x (List.mem_cons_self _ _))]
    exact ih (fun y hy => h y (List.mem_cons_of_mem _ hy))

theorem foldl_max_eq (l : List Int) (init m : Int) (hm : m ∈ l) (hub : ∀ x ∈ l, x ≤ m)
    (hinit : init ≤ m) : l.foldl max init = m := by
  induction l generalizing init with
  | nil => cases hm
  | cons x rest ih =>
    simp only [List.foldl_cons]
    have hx : x ≤ m := hub x (List.mem_cons_self _ _)
    have hrest : ∀ y ∈ rest, y ≤ m := fun y hy => hub y (List.mem_cons_of_mem _ hy)
    rcases List.mem_cons.mp hm with rfl | hmem
    · rw [max_eq_right hinit]
      exact foldl_max_of_le rest _ hrest
    · exact ih _ hmem hrest (max_le hinit hx)

theorem contributionOf_congr (role : OccRole) (env : LoopEnv)
    (read : SensorKey → Except Nat Int) (sensorRecord sensorRecord' : RecordMap)
    (e : SensorKey × SensorEntry) (h : sensorRecord e.1 = sensorRecord' e.1) :
    contributionOf role env read sensorRecord e =
      contributionOf role env read sensorRecord' e := by
  unfold contributionOf
  cases read e.1 with
  | error errno => rfl
  | ok raw =>
    simp only
    rw [adjustValue_fst_congr env.NEGATIVE_ERRNO_ON_FAIL env.sensorAdjusts sensorRecord
      sensorRecord' e.1 raw h]

theorem contributions_cons (role : OccRole) (env : LoopEnv)
    (read : SensorKey → Except Nat Int) (sensorRecord : RecordMap)
    (i : SensorKey × SensorEntry) (rest : List (SensorKey × SensorEntry)) :
    contributions role env read sensorRecord (i :: rest) =
      (contributionOf role env read sensorRecord i).toList ++
        contributions role env read sensorRecord rest := by
  unfold contributions
  rw [List.filterMap_cons]
  cases contributionOf role env read sensorRecord i <;> rfl

theorem contributions_congr (role : OccRole) (env : LoopEnv)
    (read : SensorKey → Except Nat Int) (sensorRecord sensorRecord' : RecordMap)
    (l : List (SensorKey × SensorEntry))
    (h : ∀ e ∈ l, sensorRecord e.1 = sensorRecord' e.1) :
    contributions role env read sensorRecord l =
      contributions role env read sensorRecord' l := by
  induction l with
  | nil => rfl
  | cons i rest ih =>
    rw [contributions_cons, contributions_cons,
      contributionOf_congr role env read sensorRecord sensorRecord' i
        (h i (List.mem_cons_self _ _)),
      ih (fun e he => h e (List.mem_cons_of_mem _ he))]

theorem occStep_aggregate (label : String) (value : Int) (v v' : LoopState)
    (h : occStep true label value v = Except.ok v') :
    ∃ r, occRole label = Except.ok r ∧
      v'.occ_max_dimm_temp =
        (if r = OccRole.dimm then max v.occ_max_dimm_temp value else v.occ_max_dimm_temp) ∧
      v'.occ_max_core_temp =
        (if r = OccRole.core then max v.occ_max_core_temp value else v.occ_max_core_temp) ∧
      v'.occ_max_dimm_file = v.occ_max_dimm_file ∧
      v'.occ_max_core_file = v.occ_max_core_file := by
  unfold occStep at h
  simp only [if_true] at h
  cases hr : occRole label with
  | error e => rw [hr] at h; cases h
  | ok role =>
    rw [hr] at h
    refine ⟨role, rfl, ?_⟩
    cases role with
    | dimm =>
      simp only [Except.ok.injEq] at h
      subst h
      by_cases hlt : v.occ_max_dimm_temp < value
      · simp [hlt, max_eq_right (le_of_lt hlt)]
      · simp [hlt, max_eq_left (not_lt.mp hlt)]
    | core =>
      simp only [Except.ok.injEq] at h
      subst h
      by_cases hlt : v.occ_max_core_temp < value
      · simp [hlt, max_eq_right (le_of_lt hlt)]
      · simp [hlt, max_eq_left (not_lt.mp hlt)]
    | neither =>
      simp only [Except.ok.injEq] at h
      subst h
      simp

theorem sensorBody_aggregate (env : LoopEnv) (read : SensorKey → Except Nat Int)
    (i : SensorKey × SensorEntry) (v v' : LoopState) (hocc : env.isOCC = true)
    (h : sensorBody env read i v = Except.ok v') :
    v'.occ_max_dimm_temp =
        (contributionOf OccRole.dimm env read v.sensorRecord i).toList.foldl max
          v.occ_max_dimm_temp ∧
      v'.occ_max_core_temp =
        (contributionOf OccRole.core env read v.sensorRecord i).toList.foldl max
          v.occ_max_core_temp := by
  unfold sensorBody at h
  unfold contributionOf
  cases hr : read i.1 with
  | error errno =>
    rw [hr] at h
    simp only at h
    by_cases hpol : env.REMOVE_ON_FAIL = true
    · rw [if_pos hpol] at h
      simp only [Except.ok.injEq] at h
      subst h
      simp
    · rw [if_neg hpol] at h
      cases h
  | ok raw =>
    rw [hr] at h
    simp only at h
    cases hv : (adjustValue env.NEGATIVE_ERRNO_ON_FAIL env.sensorAdjusts v.sensorRecord i.1
        raw).1 with
    | none => rw [hv] at h; cases h
    | some value =>
      rw [hv] at h
      simp only at h
      cases ho : occStep env.isOCC i.2.label value
          { v with sensorRecord := (adjustValue env.NEGATIVE_ERRNO_ON_FAIL env.sensorAdjusts
            v.sensorRecord i.1 raw).2 } with
      | error e => rw [ho] at h; cases h
      | ok w =>
        rw [ho] at h
        simp only at h
        rw [hocc] at ho
        obtain ⟨r, hrole, hd, hc, _, _⟩ := occStep_aggregate _ _ _ _ ho
        obtain ⟨_, _, _, _, _, h6, h7, _, _⟩ := ifaceLoop_frame env i value w v' h
        rw [h6, h7, hd, hc, hrole]
        constructor
        · by_cases hrd : r = OccRole.dimm <;> simp [hrd, hv]
        · by_cases hrc : r = OccRole.core <;> simp [hrc, hv]

theorem forSensors_aggregate (env : LoopEnv) (read : SensorKey → Except Nat Int)
    (l : List (SensorKey × SensorEntry)) (v v' : LoopState) (hocc : env.isOCC = true)
    (hkeys : (l.map (fun e => e.1)).Nodup)
    (h : forSensors env read l v = Except.ok v') :
    v'.occ_max_dimm_temp =
        (contributions OccRole.dimm env read v.sensorRecord l).foldl max
          v.occ_max_dimm_temp ∧
      v'.occ_max_core_temp =
        (contributions OccRole.core env read v.sensorRecord l).foldl max
          v.occ_max_core_temp ∧
      v'.occ_max_dimm_file = v.occ_max_dimm_file ∧
      v'.occ_max_core_file = v.occ_max_core_file := by
  induction l generalizing v with
  | nil =>
    simp only [forSensors, Except.ok.injEq] at h
    subst h
    exact ⟨rfl, rfl, rfl, rfl⟩
  | cons i rest ih =>
    simp only [forSensors] at h
    cases hb : sensorBody env read i v with
    | error e => rw [hb] at h; cases h
    | ok w =>
      rw [hb] at h
      simp only [List.map_cons, List.nodup_cons] at hkeys
      obtain ⟨hd, hc⟩ := sensorBody_aggregate env read i v w hocc hb
      obtain ⟨_, _, hrec, _, hfd, hfc⟩ := sensorBody_frame env read i v w hb
      obtain ⟨id, ic, ifd, ifc⟩ := ih w hkeys.2 h
      have hcongr : ∀ role, contributions role env read w.sensorRecord rest =
          contributions role env read v.sensorRecord rest := by
        intro role
        apply contributions_congr
        intro e he
        apply hrec
        intro heq
        exact hkeys.1 (List.mem_map.mpr ⟨e, he, heq⟩)
      rw [id, ic, ifd, ifc, hd, hc, hcongr, hcongr, contributions_cons, contributions_cons,
        List.foldl_append, List.foldl_append]
      exact ⟨rfl, rfl, hfd, hfc⟩

/-- C13 (counterexample).  A tick in OCC mode with one dimm sensor whose calibrated
value is -5 (raw value 5, offset -10): the tick runs to its end, the only
contribution to the dimm aggregate is -5, and the dimm aggregate is 0. -/
theorem dimm_aggregate_not_maximum :
    abortOf (tick (occEnv (adjustsFor ⟨1, -10, 1⟩)) (readsOf [(("temp", "1"), 5)])
        (occState [(("temp", "1"), ⟨"dimm0", false, false⟩)])) = none ∧
      contributions OccRole.dimm (occEnv (adjustsFor ⟨1, -10, 1⟩))
        (readsOf [(("temp", "1"), 5)])
        (occState [(("temp", "1"), ⟨"dimm0", false, false⟩)]).sensorRecord
        (occState [(("temp", "1"), ⟨"dimm0", false, false⟩)]).state = [-5] ∧
      (reached (tick (occEnv (adjustsFor ⟨1, -10, 1⟩)) (readsOf [(("temp", "1"), 5)])
        (occState [(("temp", "1"), ⟨"dimm0", false, false⟩)]))).occ_max_dimm_temp = 0 := by
  refine ⟨?_, ?_, ?_⟩ <;> decide!

/-- C13 (amended).  In OCC mode, after a tick that runs to its end over a working
set with distinct keys, the dimm aggregate is the maximum of 0 and the calibrated
values of that tick of the sensors read successfully whose label begins with
`"dimm"`, so it is their maximum whenever that is not negative; likewise the core
aggregate for the labels with `"core"` at offset 3.  Each aggregate file that
exists holds the aggregate, and the aggregates left by an earlier tick play no
part. -/
theorem occ_aggregates (env : LoopEnv) (read : SensorKey → Except Nat Int)
    (s s' : LoopState) (hocc : env.isOCC = true)
    (hkeys : (s.state.map (fun e => e.1)).Nodup)
    (h : tick env read s = Except.ok s') :
    s'.occ_max_dimm_temp =
        (contributions OccRole.dimm env read s.sensorRecord s.state).foldl max 0 ∧
      s'.occ_max_core_temp =
        (contributions OccRole.core env read s.sensorRecord s.state).foldl max 0 ∧
      (∀ m ∈ contributions OccRole.dimm env read s.sensorRecord s.state,
        (∀ x ∈ contributions OccRole.dimm env read s.sensorRecord s.state, x ≤ m) →
        0 ≤ m → s'.occ_max_dimm_temp = m) ∧
      (∀ m ∈ contributions OccRole.core env read s.sensorRecord s.state,
        (∀ x ∈ contributions OccRole.core env read s.sensorRecord s.state, x ≤ m) →
        0 ≤ m → s'.occ_max_core_temp = m) ∧
      s'.occ_max_dimm_file = s.occ_max_dimm_file.map (fun _ => s'.occ_max_dimm_temp) ∧
      s'.occ_max_core_file = s.occ_max_core_file.map (fun _ => s'.occ_max_core_temp) ∧
      (∀ a b : Int,
        tick env read { s with occ_max_core_temp := a, occ_max_dimm_temp := b } =
          tick env read s) := by
  unfold tick at h
  cases hf : forSensors env read s.state (tickStart s) with
  | error e => rw [hf] at h; cases h
  | ok w =>
    rw [hf] at h
    simp only [Except.ok.injEq] at h
    obtain ⟨hd, hc, hfd, hfc⟩ := forSensors_aggregate env read s.state (tickStart s) w hocc
      hkeys hf
    have e1 : s'.occ_max_dimm_temp = w.occ_max_dimm_temp := by
      subst h
      unfold removeFailed writeOccFiles
      split <;> simp [hocc]
    have e2 : s'.occ_max_core_temp = w.occ_max_core_temp := by
      subst h
      unfold removeFailed writeOccFiles
      split <;> simp [hocc]
    have e3 : s'.occ_max_dimm_file = w.occ_max_dimm_file.map (fun _ => w.occ_max_dimm_temp) := by
      subst h
      unfold removeFailed writeOccFiles
      split <;> simp [hocc]
    have e4 : s'.occ_max_core_file = w.occ_max_core_file.map (fun _ => w.occ_max_core_temp) := by
      subst h
      unfold removeFailed writeOccFiles
      split <;> simp [hocc]
    have hd' : s'.occ_max_dimm_temp =
        (contributions OccRole.dimm env read s.sensorRecord s.state).foldl max 0 := by
      rw [e1, hd]
      rfl
    have hc' : s'.occ_max_core_temp =
        (contributions OccRole.core env read s.sensorRecord s.state).foldl max 0 := by
      rw [e2, hc]
      rfl
    refine ⟨hd', hc', ?_, ?_, ?_, ?_, fun a b => rfl⟩
    · intro m hm hub h0
      rw [hd']
      exact foldl_max_eq _ 0 m hm hub h0
    · intro m hm hub h0
      rw [hc']
      exact foldl_max_eq _ 0 m hm hub h0
    · rw [e3, e1, hfd]
      rfl
    · rw [e4, e2, hfc]
      rfl

/-- C13 (amended) at three sensors, a dimm reading 95, a core reading 60 and a fan
reading 30, none of which reaches the erase of the end iterator: the dimm
aggregate is 95 and the core aggregate 60, whatever the locals held before, and
both files hold them. -/
theorem occ_aggregates_witness :
    abortOf (tick (occEnv noAdjusts)
        (readsOf [(("temp", "1"), 95), (("temp", "2"), 60), (("fan", "1"), 30)])
        (occState threeSensors)) = none ∧
      (reached (tick (occEnv noAdjusts)
        (readsOf [(("temp", "1"), 95), (("temp", "2"), 60), (("fan", "1"), 30)])
        (occState threeSensors))).occ_max_dimm_temp = 95 ∧
      (reached (tick (occEnv noAdjusts)
        (readsOf [(("temp", "1"), 95), (("temp", "2"), 60), (("fan", "1"), 30)])
        (occState threeSensors))).occ_max_core_temp = 60 ∧
      (reached (tick (occEnv noAdjusts)
        (readsOf [(("temp", "1"), 95), (("temp", "2"), 60), (("fan", "1"), 30)])
        (occState threeSensors))).occ_max_dimm_file = some 95 ∧
      (reached (tick (occEnv noAdjusts)
        (readsOf [(("temp", "1"), 95), (("temp", "2"), 60), (("fan", "1"), 30)])
        (occState threeSensors))).occ_max_core_file = some 60 := by
  have h := occ_aggregates (occEnv noAdjusts)
    (readsOf [(("temp", "1"), 95), (("temp", "2"), 60), (("fan", "1"), 30)])
    (occState threeSensors) _ rfl (by decide) rfl
  exact ⟨rfl, h.1.trans (by decide), h.2.1.trans (by decide),
    (h.2.2.2.2.1.trans (by rw [h.1]; decide)),
    (h.2.2.2.2.2.1.trans (by rw [h.2.1]; decide))⟩

end PhosphorHwmon
